import Mathlib

/-!
# Fingerprint manager (`client/fingerprint_manager.go`)

A shallow embedding of the fingerprint manager of the client agent and the
properties of its setup entry points and of its periodic task.

The manager talks to three collaborators whose code lives in other packages:
the detector registries (`fingerprint.NewFingerprint`, `driver.NewDriver`), the
detectors themselves (interface `fingerprint.Fingerprint`) and the client
(`updateNodeFromFingerprint`, `shutdownCh`).  They are parameters of the model.
Everything the manager does to them is threaded through an explicit `State`:
the node document behind `fm.node`, the state of the outside world the
detectors look at, the logger output, the goroutines started with `go`, and a
record of the calls made to the collaborators, in program order.

The functions of the file are embedded twice.  `fingerprint`,
`SetupFingerprints`, `SetupDrivers` and `run` are each goroutine taken alone:
what it does when no other goroutine takes a step meanwhile.  The goroutines
that a setup call starts do run beside it, though, on the same node document;
`Agent.step` is one step of a started task and `Interleaved.SetupFingerprints`
and `Interleaved.SetupDrivers` are the setup calls with the steps that a
schedule gives the started tasks while the call is in its loop.  Under a
schedule that gives them no step the two embeddings agree
(`setup_eq_interleaved_of_quiet`).
-/

namespace Client

set_option linter.dupNamespace false
set_option linter.unusedSectionVars false

/-- Go `time.Duration`: a signed count of nanoseconds. -/
abbrev Duration := Int

/-- Go `cstructs.FingerprintRequest{Config, Node}`. -/
structure FingerprintRequest (Cfg Nd : Type) where
  Config : Cfg
  Node : Nd
deriving DecidableEq, Repr

/-- What a call `f.Fingerprint(request, &response)` leaves behind: the returned
error (`none` is Go `nil`), the response variable as the detector left it, and
the outside world as the detector left it. -/
structure FingerprintOut (Resp Err W : Type) where
  err : Option Err
  response : Resp
  world : W
deriving DecidableEq, Repr

/-- Go interface `fingerprint.Fingerprint`, the detector contract.
`Fingerprint` receives the request, the response variable it is to fill (the
caller passes the zero value) and the outside world. -/
structure Fingerprint (Cfg Nd Resp Err W : Type) where
  Fingerprint : FingerprintRequest Cfg Nd → Resp → W → FingerprintOut Resp Err W
  Periodic : Bool × Duration

/-- Go `driver.DriverContext` as built by `driver.NewDriverContext`: job name,
task name and configuration.  The node and logger it also carries are
references to the objects held in `State`. -/
structure DriverContext (Cfg : Type) where
  jobName : String
  taskName : String
  config : Cfg
deriving DecidableEq, Repr

/-- Go `driver.NewDriverContext(jobName, taskName, config, node, logger, nil)`. -/
def NewDriverContext {Cfg : Type} (jobName taskName : String) (config : Cfg) :
    DriverContext Cfg :=
  { jobName := jobName, taskName := taskName, config := config }

/-- The three `fm.logger.Printf` call sites of the file. -/
inductive LogEvent (Err : Type) where
  /-- Line 26: "fingerprinting %s every %v". -/
  | periodicStart (name : String) (period : Duration)
  /-- Line 32: "periodic fingerprinting for %v failed: %+v". -/
  | periodicFailed (name : String) (err : Err)
  /-- Lines 54 and 88: "fingerprinting for %v failed: %+v". -/
  | setupFailed (name : String) (err : Err)
deriving DecidableEq, Repr

/-- One entry of the record of calls the manager makes to its collaborators. -/
inductive Call (Cfg Nd Resp Err : Type) where
  /-- A call `fingerprint.NewFingerprint(name, fm.logger)`. -/
  | NewFingerprint (name : String)
  /-- A call `driver.NewDriver(name, driverCtx)`. -/
  | NewDriver (name : String)
  /-- A call `f.Fingerprint(request, &response)` with what it returned. -/
  | Fingerprint (name : String) (request : FingerprintRequest Cfg Nd)
      (err : Option Err) (response : Resp)
  /-- A call `fm.client.updateNodeFromFingerprint(&response)`. -/
  | updateNodeFromFingerprint (response : Resp)
  /-- A call `f.Periodic()`. -/
  | Periodic (name : String)
  /-- A statement `go fm.run(f, period, name)`. -/
  | go (name : String) (period : Duration)
deriving DecidableEq, Repr

/-- The arguments of one `go fm.run(f, period, name)`: a started periodic task. -/
structure Task (Cfg Nd Resp Err W : Type) where
  f : Fingerprint Cfg Nd Resp Err W
  period : Duration
  name : String

/-- Everything the manager reads and writes. -/
structure State (Cfg Nd Resp Err W : Type) where
  /-- The node document `fm.node` points to, which is also the one
  `updateNodeFromFingerprint` writes. -/
  node : Nd
  /-- The outside world the detectors and `getConfig` look at. -/
  world : W
  /-- Output of `fm.logger`. -/
  logs : List (LogEvent Err)
  /-- Calls made to the collaborators, oldest first. -/
  calls : List (Call Cfg Nd Resp Err)
  /-- Goroutines started with `go fm.run`, oldest first. -/
  tasks : List (Task Cfg Nd Resp Err W)

/-- Go `FingerprintManager`, with the collaborators of other packages it calls
as fields: `getConfig` is the struct field of that name;
`NewFingerprint` is `fingerprint.NewFingerprint`, `NewDriver` is
`driver.NewDriver` and `updateNodeFromFingerprint` is the method of `Client`,
as a function from the node document and a response to the new document. -/
structure FingerprintManager (Cfg Nd Resp Err W : Type) where
  getConfig : W → Cfg
  NewFingerprint : String → Except Err (Fingerprint Cfg Nd Resp Err W)
  NewDriver : String → DriverContext Cfg → Except Err (Fingerprint Cfg Nd Resp Err W)
  updateNodeFromFingerprint : Nd → Resp → Nd

section Manager

variable {Cfg Nd Resp Err W : Type} [Inhabited Resp]

/-- Go `func (fm *FingerprintManager) fingerprint(name, f) error` (lines 70-79).
The response variable starts as the zero value `default`. -/
def fingerprint (fm : FingerprintManager Cfg Nd Resp Err W) (name : String)
    (f : Fingerprint Cfg Nd Resp Err W) (s : State Cfg Nd Resp Err W) :
    Option Err × State Cfg Nd Resp Err W :=
  let request : FingerprintRequest Cfg Nd := { Config := fm.getConfig s.world, Node := s.node }
  let out := f.Fingerprint request default s.world
  let s1 : State Cfg Nd Resp Err W :=
    { s with
      world := out.world
      calls := s.calls ++ [Call.Fingerprint name request out.err out.response] }
  match out.err with
  | some err => (some err, s1)
  | none =>
    (none,
      { s1 with
        node := fm.updateNodeFromFingerprint s1.node out.response
        calls := s1.calls ++ [Call.updateNodeFromFingerprint out.response] })

/-- The statement `go fm.run(f, period, name)` in a setup call taken alone:
the goroutine is started, which puts it among the tasks, and takes no step
before the call returns.  What a task does is `run`; the steps it takes beside
the setup call that started it are those of `Agent.step`. -/
def go (f : Fingerprint Cfg Nd Resp Err W) (period : Duration) (name : String)
    (s : State Cfg Nd Resp Err W) : State Cfg Nd Resp Err W :=
  { s with
    tasks := s.tasks ++ [{ f := f, period := period, name := name }]
    calls := s.calls ++ [Call.go name period] }

/-- Go `func (fm *FingerprintManager) SetupFingerprints(fingerprints []string) error`
(lines 83-102), taken alone: the tasks it starts take no step before it
returns. -/
def SetupFingerprints (fm : FingerprintManager Cfg Nd Resp Err W) :
    List String → State Cfg Nd Resp Err W → Option Err × State Cfg Nd Resp Err W
  | [], s => (none, s)
  | name :: rest, s =>
    let s0 : State Cfg Nd Resp Err W := { s with calls := s.calls ++ [Call.NewFingerprint name] }
    match fm.NewFingerprint name with
    | Except.error err =>
      (some err, { s0 with logs := s0.logs ++ [LogEvent.setupFailed name err] })
    | Except.ok f =>
      match fingerprint fm name f s0 with
      | (some err, s1) => (some err, s1)
      | (none, s1) =>
        let s2 : State Cfg Nd Resp Err W := { s1 with calls := s1.calls ++ [Call.Periodic name] }
        let s3 := if f.Periodic.1 then go f f.Periodic.2 name s2 else s2
        SetupFingerprints fm rest s3

/-- The `for _, name := range drivers` loop of `SetupDrivers` (lines 46-62). -/
def SetupDrivers.loop (fm : FingerprintManager Cfg Nd Resp Err W) (driverCtx : DriverContext Cfg) :
    List String → State Cfg Nd Resp Err W → Option Err × State Cfg Nd Resp Err W
  | [], s => (none, s)
  | name :: rest, s =>
    let s0 : State Cfg Nd Resp Err W := { s with calls := s.calls ++ [Call.NewDriver name] }
    match fm.NewDriver name driverCtx with
    | Except.error err => (some err, s0)
    | Except.ok d =>
      match fingerprint fm name d s0 with
      | (some err, s1) =>
        (some err, { s1 with logs := s1.logs ++ [LogEvent.setupFailed name err] })
      | (none, s1) =>
        let s2 : State Cfg Nd Resp Err W := { s1 with calls := s1.calls ++ [Call.Periodic name] }
        let s3 := if d.Periodic.1 then go d d.Periodic.2 name s2 else s2
        SetupDrivers.loop fm driverCtx rest s3

/-- Go `func (fm *FingerprintManager) SetupDrivers(drivers []string) error`
(lines 44-65), taken alone: the tasks it starts take no step before it
returns. -/
def SetupDrivers (fm : FingerprintManager Cfg Nd Resp Err W) (drivers : List String)
    (s : State Cfg Nd Resp Err W) : Option Err × State Cfg Nd Resp Err W :=
  let driverCtx := NewDriverContext "" "" (fm.getConfig s.world)
  SetupDrivers.loop fm driverCtx drivers s

/-- The two communication clauses of the `select` in `run`. -/
inductive SelectCase where
  /-- Clause `case <-time.After(period)`. -/
  | timer
  /-- Clause `case <-fm.client.shutdownCh`. -/
  | shutdown
deriving DecidableEq, Repr

/-- What one execution of the `select` statement of `run` meets: whether the
channel of `time.After(period)` can be received from, whether `shutdownCh` can
be received from (it is closed), and the clause Go's pseudo-random selection
takes when both can proceed. -/
structure Wake where
  timer : Bool
  shutdown : Bool
  pick : SelectCase
deriving DecidableEq, Repr

/-- Go `select` over the two clauses of `run`: a clause that can proceed is
taken; when both can proceed the language picks one of them, here `pick`; when
none can proceed the statement has not completed yet. -/
def select (w : Wake) : Option SelectCase :=
  match w.timer, w.shutdown with
  | true, false => some SelectCase.timer
  | false, true => some SelectCase.shutdown
  | true, true => some w.pick
  | false, false => none

/-- Where a periodic task is once the wake-ups it was given are used up:
blocked in `select` (WAITING) or returned from `run` (TERMINATED).  RUNNING is
the body of the timer clause, which is a plain call. -/
inductive Phase where
  | WAITING
  | TERMINATED
deriving DecidableEq, Repr

/-- The `for { select { ... } }` loop of `run` (lines 28-39), driven by the
successive wake-ups of its `select`. -/
def run.loop (fm : FingerprintManager Cfg Nd Resp Err W) (f : Fingerprint Cfg Nd Resp Err W)
    (name : String) : List Wake → State Cfg Nd Resp Err W → Phase × State Cfg Nd Resp Err W
  | [], s => (Phase.WAITING, s)
  | w :: ws, s =>
    match select w with
    | none => run.loop fm f name ws s
    | some SelectCase.timer =>
      match fingerprint fm name f s with
      | (some err, s1) =>
        run.loop fm f name ws { s1 with logs := s1.logs ++ [LogEvent.periodicFailed name err] }
      | (none, s1) => run.loop fm f name ws s1
    | some SelectCase.shutdown => (Phase.TERMINATED, s)

/-- Go `func (fm *FingerprintManager) run(f, period, name)` (lines 25-40). -/
def run (fm : FingerprintManager Cfg Nd Resp Err W) (f : Fingerprint Cfg Nd Resp Err W)
    (period : Duration) (name : String) (wakes : List Wake) (s : State Cfg Nd Resp Err W) :
    Phase × State Cfg Nd Resp Err W :=
  run.loop fm f name wakes { s with logs := s.logs ++ [LogEvent.periodicStart name period] }

/-! ## A setup call beside the tasks that have been started

`go fm.run(f, period, name)` starts a goroutine that runs beside the setup
call that started it: while the call is still in its loop, the task can log,
call its detector and merge into the same node document.  `Agent` is the agent
as all its goroutines see it, and the `Interleaved` entry points are the setup
entry points with, at each point where it matters, the steps the scheduler
lets the started tasks take there. -/

/-- A goroutine of the agent: the one in the setup call, or a started task, by
its position in `tasks`. -/
inductive Actor where
  | setup
  | task (i : Nat)
deriving DecidableEq, Repr

/-- Where a started task is in `run`: before its first statement (line 26), at
the `select` (line 29), between the Fingerprint call (line 73) and the merge
(line 77) of a tick, holding the response, or returned (line 37). -/
inductive TaskPc (Resp : Type) where
  | start
  | waiting
  | merging (response : Resp)
  | returned
deriving DecidableEq, Repr

/-- The agent as its goroutines share it: the node document, the outside
world, the logger output, the started tasks, where each task is in `run` (a
task without an entry is at `start`; the first entry of a task counts), and
the calls made to the collaborators by all goroutines, in the order in which
they happened. -/
structure Agent (Cfg Nd Resp Err W : Type) where
  node : Nd
  world : W
  logs : List (LogEvent Err)
  tasks : List (Task Cfg Nd Resp Err W)
  pcs : List (Nat × TaskPc Resp)
  history : List (Actor × Call Cfg Nd Resp Err)

/-- Where task `i` is in `run`. -/
def Agent.pc (a : Agent Cfg Nd Resp Err W) (i : Nat) : TaskPc Resp :=
  (a.pcs.lookup i).getD TaskPc.start

/-- One step of the started task `i` (lines 25-40, with `fingerprint`, lines
70-79, in the timer clause): the log line of line 26; at the `select`, with
wake-up `wk`, either the return of line 37 or the Fingerprint call of line 73,
followed by the log line of line 32 when the call fails; and the merge of
line 77.  A task that has not been started, or has returned, does nothing. -/
def Agent.step (fm : FingerprintManager Cfg Nd Resp Err W) (a : Agent Cfg Nd Resp Err W)
    (i : Nat) (wk : Wake) : Agent Cfg Nd Resp Err W :=
  match a.tasks[i]? with
  | none => a
  | some t =>
    match a.pc i with
    | TaskPc.start =>
      { a with
        logs := a.logs ++ [LogEvent.periodicStart t.name t.period]
        pcs := (i, TaskPc.waiting) :: a.pcs }
    | TaskPc.waiting =>
      match select wk with
      | none => a
      | some SelectCase.shutdown => { a with pcs := (i, TaskPc.returned) :: a.pcs }
      | some SelectCase.timer =>
        let request : FingerprintRequest Cfg Nd := { Config := fm.getConfig a.world, Node := a.node }
        let out := t.f.Fingerprint request default a.world
        let a1 : Agent Cfg Nd Resp Err W :=
          { a with
            world := out.world
            history := a.history ++
              [(Actor.task i, Call.Fingerprint t.name request out.err out.response)] }
        match out.err with
        | some err => { a1 with logs := a1.logs ++ [LogEvent.periodicFailed t.name err] }
        | none => { a1 with pcs := (i, TaskPc.merging out.response) :: a1.pcs }
    | TaskPc.merging response =>
      { a with
        node := fm.updateNodeFromFingerprint a.node response
        pcs := (i, TaskPc.waiting) :: a.pcs
        history := a.history ++ [(Actor.task i, Call.updateNodeFromFingerprint response)] }
    | TaskPc.returned => a

/-- The steps the scheduler lets the started tasks take at one point of the
setup call: which task, and what its `select` meets if it is there. -/
abbrev Burst := List (Nat × Wake)

/-- The bursts of the started tasks at the successive points of a setup call;
where the list is used up no task takes a step. -/
abbrev Schedule := List Burst

/-- The agent after the steps of a burst. -/
def Agent.steps (fm : FingerprintManager Cfg Nd Resp Err W) (a : Agent Cfg Nd Resp Err W)
    (burst : Burst) : Agent Cfg Nd Resp Err W :=
  burst.foldl (fun b p => b.step fm p.1 p.2) a

/-- Go `SetupFingerprints` (lines 83-102) beside the started tasks.  A
Fingerprint call is one step.  The tasks take their steps before the
iteration (or the end of the loop) and between the Fingerprint call of line 73
and what follows it; the other statements of an iteration (the resolution,
`Periodic()`, the `go` statement, the log line) read and write neither the
node document nor the world, so steps taken between them are, up to the order
of the log lines, steps taken at one of these points. -/
def Interleaved.SetupFingerprints (fm : FingerprintManager Cfg Nd Resp Err W) :
    List String → Schedule → Agent Cfg Nd Resp Err W → Option Err × Agent Cfg Nd Resp Err W
  | [], sched, a => (none, a.steps fm (sched.headD []))
  | name :: rest, sched, a =>
    let a0 := a.steps fm (sched.headD [])
    let a1 : Agent Cfg Nd Resp Err W :=
      { a0 with history := a0.history ++ [(Actor.setup, Call.NewFingerprint name)] }
    match fm.NewFingerprint name with
    | Except.error err =>
      (some err, { a1 with logs := a1.logs ++ [LogEvent.setupFailed name err] })
    | Except.ok f =>
      let request : FingerprintRequest Cfg Nd :=
        { Config := fm.getConfig a1.world, Node := a1.node }
      let out := f.Fingerprint request default a1.world
      let a2 : Agent Cfg Nd Resp Err W :=
        { a1 with
          world := out.world
          history := a1.history ++
            [(Actor.setup, Call.Fingerprint name request out.err out.response)] }
      let a3 := a2.steps fm (sched.tail.headD [])
      match out.err with
      | some err => (some err, a3)
      | none =>
        let a4 : Agent Cfg Nd Resp Err W :=
          { a3 with
            node := fm.updateNodeFromFingerprint a3.node out.response
            history := a3.history ++
              [(Actor.setup, Call.updateNodeFromFingerprint out.response),
                (Actor.setup, Call.Periodic name)] }
        let a5 : Agent Cfg Nd Resp Err W :=
          if f.Periodic.1 then
            { a4 with
              tasks := a4.tasks ++ [{ f := f, period := f.Periodic.2, name := name }]
              history := a4.history ++ [(Actor.setup, Call.go name f.Periodic.2)] }
          else a4
        Interleaved.SetupFingerprints fm rest sched.tail.tail a5

/-- The loop of `SetupDrivers` (lines 46-62) beside the started tasks, with
the same points as `Interleaved.SetupFingerprints`. -/
def Interleaved.SetupDrivers.loop (fm : FingerprintManager Cfg Nd Resp Err W)
    (driverCtx : DriverContext Cfg) :
    List String → Schedule → Agent Cfg Nd Resp Err W → Option Err × Agent Cfg Nd Resp Err W
  | [], sched, a => (none, a.steps fm (sched.headD []))
  | name :: rest, sched, a =>
    let a0 := a.steps fm (sched.headD [])
    let a1 : Agent Cfg Nd Resp Err W :=
      { a0 with history := a0.history ++ [(Actor.setup, Call.NewDriver name)] }
    match fm.NewDriver name driverCtx with
    | Except.error err => (some err, a1)
    | Except.ok d =>
      let request : FingerprintRequest Cfg Nd :=
        { Config := fm.getConfig a1.world, Node := a1.node }
      let out := d.Fingerprint request default a1.world
      let a2 : Agent Cfg Nd Resp Err W :=
        { a1 with
          world := out.world
          history := a1.history ++
            [(Actor.setup, Call.Fingerprint name request out.err out.response)] }
      let a3 := a2.steps fm (sched.tail.headD [])
      match out.err with
      | some err => (some err, { a3 with logs := a3.logs ++ [LogEvent.setupFailed name err] })
      | none =>
        let a4 : Agent Cfg Nd Resp Err W :=
          { a3 with
            node := fm.updateNodeFromFingerprint a3.node out.response
            history := a3.history ++
              [(Actor.setup, Call.updateNodeFromFingerprint out.response),
                (Actor.setup, Call.Periodic name)] }
        let a5 : Agent Cfg Nd Resp Err W :=
          if d.Periodic.1 then
            { a4 with
              tasks := a4.tasks ++ [{ f := d, period := d.Periodic.2, name := name }]
              history := a4.history ++ [(Actor.setup, Call.go name d.Periodic.2)] }
          else a4
        Interleaved.SetupDrivers.loop fm driverCtx rest sched.tail.tail a5

/-- Go `SetupDrivers` (lines 44-65) beside the started tasks. -/
def Interleaved.SetupDrivers (fm : FingerprintManager Cfg Nd Resp Err W) (drivers : List String)
    (sched : Schedule) (a : Agent Cfg Nd Resp Err W) : Option Err × Agent Cfg Nd Resp Err W :=
  let driverCtx := NewDriverContext "" "" (fm.getConfig a.world)
  Interleaved.SetupDrivers.loop fm driverCtx drivers sched a

/-! ## Vocabulary of the properties -/

/-- The two setup entry points. -/
inductive Entry where
  | SetupFingerprints
  | SetupDrivers
deriving DecidableEq, Repr

/-- A call of one of the two setup entry points. -/
def setup (fm : FingerprintManager Cfg Nd Resp Err W) (entry : Entry) (names : List String)
    (s : State Cfg Nd Resp Err W) : Option Err × State Cfg Nd Resp Err W :=
  match entry with
  | Entry.SetupFingerprints => SetupFingerprints fm names s
  | Entry.SetupDrivers => SetupDrivers fm names s

/-- How a setup call that starts in world `w0` resolves a name: the attribute
registry for `SetupFingerprints`; for `SetupDrivers` the driver registry with
the driver context built on entry. -/
def resolve (fm : FingerprintManager Cfg Nd Resp Err W) (entry : Entry) (w0 : W) (name : String) :
    Except Err (Fingerprint Cfg Nd Resp Err W) :=
  match entry with
  | Entry.SetupFingerprints => fm.NewFingerprint name
  | Entry.SetupDrivers => fm.NewDriver name (NewDriverContext "" "" (fm.getConfig w0))

/-- The record of a resolution made by a setup entry point. -/
def resolveCall (entry : Entry) (name : String) : Call Cfg Nd Resp Err :=
  match entry with
  | Entry.SetupFingerprints => Call.NewFingerprint name
  | Entry.SetupDrivers => Call.NewDriver name

/-- One detector of a setup list that resolved and whose initial run succeeded:
its name, the detector, the world in which it was called, the request it was
given and the response it gave. -/
structure InitialRun (Cfg Nd Resp Err W : Type) where
  name : String
  f : Fingerprint Cfg Nd Resp Err W
  world : W
  request : FingerprintRequest Cfg Nd
  response : Resp

/-- The node document with the responses of `runs` merged in, in list order. -/
def mergeAll (fm : FingerprintManager Cfg Nd Resp Err W) (node : Nd)
    (runs : List (InitialRun Cfg Nd Resp Err W)) : Nd :=
  runs.foldl (fun n r => fm.updateNodeFromFingerprint n r.response) node

/-- Spec-side reading of "every name of the list resolves and every initial
Fingerprint call succeeds", for a setup call entered in world `w0`:
`InitialRuns fm entry w0 names node w runs w1` says that, starting from node
document `node` and world `w`, each name resolves, and each detector, called
with the current configuration and the node document as the merges of the
detectors before it left it, returns no error; `runs` collects the responses
and `w1` is the world after the last call. -/
inductive InitialRuns (fm : FingerprintManager Cfg Nd Resp Err W) (entry : Entry) (w0 : W) :
    List String → Nd → W → List (InitialRun Cfg Nd Resp Err W) → W → Prop where
  | nil (node : Nd) (w : W) : InitialRuns fm entry w0 [] node w [] w
  | cons {name : String} {rest : List String} {node : Nd} {w w1 w2 : W}
      {f : Fingerprint Cfg Nd Resp Err W} {r : Resp}
      {runs : List (InitialRun Cfg Nd Resp Err W)}
      (hresolve : resolve fm entry w0 name = Except.ok f)
      (hrun : f.Fingerprint { Config := fm.getConfig w, Node := node } default w
        = { err := none, response := r, world := w1 })
      (hrest : InitialRuns fm entry w0 rest (fm.updateNodeFromFingerprint node r) w1 runs w2) :
      InitialRuns fm entry w0 (name :: rest) node w
        ({ name := name, f := f, world := w,
           request := { Config := fm.getConfig w, Node := node }, response := r } :: runs) w2

/-- Spec-side reading of "name `name` fails with error `e`" when the node
document is `node` and the world is `w`: either the name does not resolve, or
it resolves and the initial Fingerprint call of the detector returns `e`. -/
def FailsWith (fm : FingerprintManager Cfg Nd Resp Err W) (entry : Entry) (w0 : W)
    (name : String) (node : Nd) (w : W) (e : Err) : Prop :=
  resolve fm entry w0 name = Except.error e ∨
    ∃ f, resolve fm entry w0 name = Except.ok f ∧
      (f.Fingerprint { Config := fm.getConfig w, Node := node } default w).err = some e

/-- The calls a setup entry point makes for one detector that resolves and runs
successfully, in program order. -/
def InitialRun.calls (entry : Entry) (r : InitialRun Cfg Nd Resp Err W) :
    List (Call Cfg Nd Resp Err) :=
  [resolveCall entry r.name, Call.Fingerprint r.name r.request none r.response,
    Call.updateNodeFromFingerprint r.response, Call.Periodic r.name]
    ++ (if r.f.Periodic.1 then [Call.go r.name r.f.Periodic.2] else [])

/-- The task a successful detector gets: one when `Periodic()` says true. -/
def InitialRun.tasks (r : InitialRun Cfg Nd Resp Err W) : List (Task Cfg Nd Resp Err W) :=
  if r.f.Periodic.1 then [{ f := r.f, period := r.f.Periodic.2, name := r.name }] else []

/-- The state a setup entry point is in after the successful `runs`, when it
was entered in state `s`, and the world is `w` by then. -/
def afterRuns (fm : FingerprintManager Cfg Nd Resp Err W) (entry : Entry)
    (s : State Cfg Nd Resp Err W) (runs : List (InitialRun Cfg Nd Resp Err W)) (w : W) :
    State Cfg Nd Resp Err W :=
  { node := mergeAll fm s.node runs
    world := w
    logs := s.logs
    calls := s.calls ++ runs.flatMap (InitialRun.calls entry)
    tasks := s.tasks ++ runs.flatMap InitialRun.tasks }

/-- What a setup entry point logs when a name does not resolve. -/
def resolveFailureLogs (entry : Entry) (name : String) (e : Err) : List (LogEvent Err) :=
  match entry with
  | Entry.SetupFingerprints => [LogEvent.setupFailed name e]
  | Entry.SetupDrivers => []

/-- What a setup entry point logs when an initial Fingerprint call fails. -/
def runFailureLogs (entry : Entry) (name : String) (e : Err) : List (LogEvent Err) :=
  match entry with
  | Entry.SetupFingerprints => []
  | Entry.SetupDrivers => [LogEvent.setupFailed name e]

/-- The loop of a setup entry point that was entered in world `w0`. -/
def setupFrom (fm : FingerprintManager Cfg Nd Resp Err W) (entry : Entry) (w0 : W)
    (names : List String) (s : State Cfg Nd Resp Err W) :
    Option Err × State Cfg Nd Resp Err W :=
  match entry with
  | Entry.SetupFingerprints => SetupFingerprints fm names s
  | Entry.SetupDrivers =>
    SetupDrivers.loop fm (NewDriverContext "" "" (fm.getConfig w0)) names s

/-- The name and request of a recorded Fingerprint call. -/
def Call.fingerprinted : Call Cfg Nd Resp Err → Option (String × FingerprintRequest Cfg Nd)
  | Call.Fingerprint name request _ _ => some (name, request)
  | _ => none


/-- The response of a recorded Fingerprint call that returned no error. -/
def Call.succeeded : Call Cfg Nd Resp Err → Option Resp
  | Call.Fingerprint _ _ none response => some response
  | _ => none

/-- The state of a periodic task after the body of the timer clause of `run`
(lines 31-34) has been executed in state `s`. -/
def afterTick (fm : FingerprintManager Cfg Nd Resp Err W) (name : String)
    (f : Fingerprint Cfg Nd Resp Err W) (s : State Cfg Nd Resp Err W) :
    State Cfg Nd Resp Err W :=
  match fingerprint fm name f s with
  | (some err, s1) => { s1 with logs := s1.logs ++ [LogEvent.periodicFailed name err] }
  | (none, s1) => s1

/-! ### Vocabulary for a setup call beside the started tasks -/

/-- A call of one of the two setup entry points beside the started tasks. -/
def Interleaved.setup (fm : FingerprintManager Cfg Nd Resp Err W) (entry : Entry)
    (names : List String) (sched : Schedule) (a : Agent Cfg Nd Resp Err W) :
    Option Err × Agent Cfg Nd Resp Err W :=
  match entry with
  | Entry.SetupFingerprints => Interleaved.SetupFingerprints fm names sched a
  | Entry.SetupDrivers => Interleaved.SetupDrivers fm names sched a

/-- The loop of a setup entry point that was entered in world `w0`, beside the
started tasks. -/
def Interleaved.setupFrom (fm : FingerprintManager Cfg Nd Resp Err W) (entry : Entry) (w0 : W)
    (names : List String) (sched : Schedule) (a : Agent Cfg Nd Resp Err W) :
    Option Err × Agent Cfg Nd Resp Err W :=
  match entry with
  | Entry.SetupFingerprints => Interleaved.SetupFingerprints fm names sched a
  | Entry.SetupDrivers =>
    Interleaved.SetupDrivers.loop fm (NewDriverContext "" "" (fm.getConfig w0)) names sched a

/-- The calls of one goroutine in a stretch of history, in order. -/
def callsOf (actor : Actor) (history : List (Actor × Call Cfg Nd Resp Err)) :
    List (Call Cfg Nd Resp Err) :=
  history.filterMap (fun p => if p.1 = actor then some p.2 else none)

/-- The responses merged into the node document by a list of calls, in order. -/
def merged (calls : List (Call Cfg Nd Resp Err)) : List Resp :=
  calls.filterMap (fun c =>
    match c with
    | Call.updateNodeFromFingerprint response => some response
    | _ => none)

/-- The agent at the next point of a setup call where the started tasks take
steps: after the burst the schedule has for that point. -/
def Agent.atPoint (fm : FingerprintManager Cfg Nd Resp Err W) (a : Agent Cfg Nd Resp Err W)
    (sched : Schedule) : Agent Cfg Nd Resp Err W :=
  a.steps fm (sched.headD [])

/-- The agent after an iteration of a setup loop in which the detector resolved
and its initial run succeeded, as `initial` records it, leaving the world
`w1`: the burst before the iteration, the resolution and the Fingerprint call,
the burst after the call, then the merge, `Periodic()` and the `go` statement. -/
def Agent.afterRun (fm : FingerprintManager Cfg Nd Resp Err W) (entry : Entry)
    (a : Agent Cfg Nd Resp Err W) (sched : Schedule) (initial : InitialRun Cfg Nd Resp Err W)
    (w1 : W) : Agent Cfg Nd Resp Err W :=
  let a0 := a.atPoint fm sched
  let a2 : Agent Cfg Nd Resp Err W :=
    { a0 with
      world := w1
      history := a0.history ++
        [(Actor.setup, resolveCall entry initial.name),
          (Actor.setup,
            Call.Fingerprint initial.name initial.request none initial.response)] }
  let a3 := a2.atPoint fm sched.tail
  { a3 with
    node := fm.updateNodeFromFingerprint a3.node initial.response
    tasks := a3.tasks ++ initial.tasks
    history := a3.history ++
      ([(Actor.setup, Call.updateNodeFromFingerprint initial.response),
          (Actor.setup, Call.Periodic initial.name)] ++
        (if initial.f.Periodic.1 then
          [(Actor.setup, Call.go initial.name initial.f.Periodic.2)] else [])) }

/-- Spec-side reading of "every name of the list resolves and every initial
Fingerprint call succeeds" for a setup call, entered in world `w0`, that runs
beside the started tasks under a schedule:
`InterleavedRuns fm entry w0 names sched a runs sched1 a1` says that, from
agent `a` and with the bursts of `sched`, each name resolves, and each
detector, called with the configuration and the node document as they are at
the time of the call, returns no error; `runs` collects the runs, `sched1` is
what is left of the schedule and `a1` is the agent after the last run. -/
inductive InterleavedRuns (fm : FingerprintManager Cfg Nd Resp Err W) (entry : Entry) (w0 : W) :
    List String → Schedule → Agent Cfg Nd Resp Err W → List (InitialRun Cfg Nd Resp Err W) →
      Schedule → Agent Cfg Nd Resp Err W → Prop where
  | nil (sched : Schedule) (a : Agent Cfg Nd Resp Err W) :
      InterleavedRuns fm entry w0 [] sched a [] sched a
  | cons {name : String} {rest : List String} {sched sched1 : Schedule}
      {a a1 : Agent Cfg Nd Resp Err W} {f : Fingerprint Cfg Nd Resp Err W} {r : Resp} {w1 : W}
      {runs : List (InitialRun Cfg Nd Resp Err W)}
      (hresolve : resolve fm entry w0 name = Except.ok f)
      (hrun : f.Fingerprint
          { Config := fm.getConfig (a.atPoint fm sched).world, Node := (a.atPoint fm sched).node }
          default (a.atPoint fm sched).world
        = { err := none, response := r, world := w1 })
      (hrest : InterleavedRuns fm entry w0 rest sched.tail.tail
        (a.afterRun fm entry sched
          { name := name, f := f, world := (a.atPoint fm sched).world,
            request := { Config := fm.getConfig (a.atPoint fm sched).world,
                         Node := (a.atPoint fm sched).node },
            response := r } w1) runs sched1 a1) :
      InterleavedRuns fm entry w0 (name :: rest) sched a
        ({ name := name, f := f, world := (a.atPoint fm sched).world,
           request := { Config := fm.getConfig (a.atPoint fm sched).world,
                        Node := (a.atPoint fm sched).node },
           response := r } :: runs) sched1 a1

/-- What a stretch of the life of the agent, from `a` to `b`, has done: the
history has grown by a stretch in which the calls of the setup goroutine are
`calls`, the node document is the one of `a` with the responses merged in that
stretch, by any goroutine, merged in that order, and the tasks `tasks` have
been started. -/
def Agent.Extends (fm : FingerprintManager Cfg Nd Resp Err W) (a b : Agent Cfg Nd Resp Err W)
    (calls : List (Call Cfg Nd Resp Err)) (tasks : List (Task Cfg Nd Resp Err W)) : Prop :=
  ∃ new : List (Actor × Call Cfg Nd Resp Err),
    b.history = a.history ++ new ∧
    callsOf Actor.setup new = calls ∧
    b.node = (merged (new.map Prod.snd)).foldl fm.updateNodeFromFingerprint a.node ∧
    b.tasks = a.tasks ++ tasks

/-- The agent as its goroutines share it, when only a setup call has run so
far, leaving state `s`: no started task has taken a step. -/
def Agent.ofState (s : State Cfg Nd Resp Err W) : Agent Cfg Nd Resp Err W :=
  { node := s.node, world := s.world, logs := s.logs, tasks := s.tasks, pcs := [],
    history := s.calls.map (fun c => (Actor.setup, c)) }

/-- The agent as the setup goroutine taken alone records it. -/
def Agent.toState (a : Agent Cfg Nd Resp Err W) : State Cfg Nd Resp Err W :=
  { node := a.node, world := a.world, logs := a.logs, calls := callsOf Actor.setup a.history,
    tasks := a.tasks }

/-- No started task has merged into the node document in a stretch of
history. -/
def NoTaskMerge (history : List (Actor × Call Cfg Nd Resp Err)) : Prop :=
  ∀ (i : Nat) (response : Resp),
    (Actor.task i, Call.updateNodeFromFingerprint response) ∉ history

/-! ## A concrete agent

Attributes are numbers keyed by name, the world counts the Fingerprint calls
made so far, and the configuration is the region name. -/

namespace Scenario

/-- The node document and the responses: attribute name to value. -/
abbrev Attributes := List (String × Nat)

/-- A merge of a response into the node document: the attributes of the
response replace those of the same name. -/
def updateNode (node response : Attributes) : Attributes :=
  response ++ node.filter (fun kv => (response.lookup kv.1).isNone)

/-- A one-shot detector that always succeeds. -/
def cpu : Fingerprint String Attributes Attributes String Nat :=
  { Fingerprint := fun _ _ w => { err := none, response := [("cpu.numcores", 4)], world := w + 1 }
    Periodic := (false, 0) }

/-- A periodic detector with a 50ms interval that succeeds on its first call
and then alternates failure and success. -/
def memory : Fingerprint String Attributes Attributes String Nat :=
  { Fingerprint := fun _ response w =>
      if w % 2 = 0 then
        { err := none, response := [("memory.totalbytes", 1000 + w)], world := w + 1 }
      else { err := some "memory: probe failed", response := response, world := w + 1 }
    Periodic := (true, 50000000) }

/-- A one-shot detector that always fails. -/
def storage : Fingerprint String Attributes Attributes String Nat :=
  { Fingerprint := fun _ response w =>
      { err := some "storage: no such device", response := response, world := w + 1 }
    Periodic := (false, 0) }

/-- A periodic driver detector that always succeeds and reports nothing. -/
def exec : Fingerprint String Attributes Attributes String Nat :=
  { Fingerprint := fun _ response w => { err := none, response := response, world := w + 1 }
    Periodic := (true, 15000000000) }

/-- A driver detector that always fails. -/
def docker : Fingerprint String Attributes Attributes String Nat :=
  { Fingerprint := fun _ response w =>
      { err := some "docker: daemon unreachable", response := response, world := w + 1 }
    Periodic := (true, 15000000000) }

/-- The manager of the concrete agent. -/
def fm : FingerprintManager String Attributes Attributes String Nat :=
  { getConfig := fun _ => "global"
    NewFingerprint := fun name =>
      if name = "cpu" then Except.ok cpu
      else if name = "memory" then Except.ok memory
      else if name = "storage" then Except.ok storage
      else Except.error ("unknown fingerprint: " ++ name)
    NewDriver := fun name _ =>
      if name = "exec" then Except.ok exec
      else if name = "docker" then Except.ok docker
      else Except.error ("unknown driver: " ++ name)
    updateNodeFromFingerprint := updateNode }

/-- The agent before any setup call. -/
def start : State String Attributes Attributes String Nat :=
  { node := [("memory.totalbytes", 512)], world := 0, logs := [], calls := [], tasks := [] }

/-- The successful initial run of `memory` from `start`. -/
def memoryRun : InitialRun String Attributes Attributes String Nat :=
  { name := "memory", f := memory, world := 0
    request := { Config := "global", Node := [("memory.totalbytes", 512)] }
    response := [("memory.totalbytes", 1000)] }

/-- The successful initial run of `cpu` after `memoryRun`. -/
def cpuRun : InitialRun String Attributes Attributes String Nat :=
  { name := "cpu", f := cpu, world := 1
    request := { Config := "global", Node := [("memory.totalbytes", 1000)] }
    response := [("cpu.numcores", 4)] }

/-- The task of `memory`, started from `start`, after one successful tick. -/
def afterFirstTick : State String Attributes Attributes String Nat :=
  { node := [("memory.totalbytes", 1000)]
    world := 1
    logs := [LogEvent.periodicStart "memory" 50000000]
    calls := [Call.Fingerprint "memory"
        { Config := "global", Node := [("memory.totalbytes", 512)] } none
        [("memory.totalbytes", 1000)],
      Call.updateNodeFromFingerprint [("memory.totalbytes", 1000)]]
    tasks := [] }

/-- A wake-up of `select` at which only the timer can be received from. -/
def tick : Wake := { timer := true, shutdown := false, pick := SelectCase.timer }

/-- A wake-up of `select` at which only the shutdown channel can be received from. -/
def stop : Wake := { timer := false, shutdown := true, pick := SelectCase.shutdown }

/-- A wake-up of `select` at which both channels can be received from and the
timer clause is the one selected. -/
def tickAtShutdown : Wake := { timer := true, shutdown := true, pick := SelectCase.timer }

/-- The agent before any setup call, as its goroutines share it. -/
def boot : Agent String Attributes Attributes String Nat :=
  { node := [("memory.totalbytes", 512)], world := 0, logs := [], tasks := [], pcs := [],
    history := [] }

/-- A schedule for a setup list that starts with `memory` and `cpu`: the task
of `memory` takes its first step before the iteration of `cpu`, and makes one
successful tick between the Fingerprint call of `cpu` and its merge. -/
def tickDuringCpu : Schedule := [[], [], [(0, tick)], [(0, tick), (0, tick)]]

/-- A schedule for a setup list that starts with `memory`: before the next
iteration the task of `memory` takes its first step, makes a tick that fails
and a tick that succeeds. -/
def ticksAfterMemory : Schedule := [[], [], [(0, tick), (0, tick), (0, tick), (0, tick)]]

/-- The agent after the successful iteration of `memory` from `boot`, under a
schedule that gives the tasks no step in it. -/
def afterMemory : Agent String Attributes Attributes String Nat :=
  boot.afterRun fm Entry.SetupFingerprints tickDuringCpu memoryRun 1

/-- The agent after the successful iterations of `memory` and `cpu` from
`boot`, under `tickDuringCpu`. -/
def afterMemoryCpu : Agent String Attributes Attributes String Nat :=
  afterMemory.afterRun fm Entry.SetupFingerprints tickDuringCpu.tail.tail cpuRun 2

end Scenario

end Manager

/-! ## Properties -/

section Properties

variable {Cfg Nd Resp Err W : Type} [Inhabited Resp]

theorem setup_eq_setupFrom (fm : FingerprintManager Cfg Nd Resp Err W) (entry : Entry)
    (names : List String) (s : State Cfg Nd Resp Err W) :
    setup fm entry names s = setupFrom fm entry s.world names s := by
  cases entry <;> rfl

theorem setupFrom_nil (fm : FingerprintManager Cfg Nd Resp Err W) (entry : Entry) (w0 : W)
    (s : State Cfg Nd Resp Err W) : setupFrom fm entry w0 [] s = (none, s) := by
  cases entry <;> rfl

theorem afterRuns_nil (fm : FingerprintManager Cfg Nd Resp Err W) (entry : Entry)
    (s : State Cfg Nd Resp Err W) : afterRuns fm entry s [] s.world = s := by
  cases s
  simp [afterRuns, mergeAll]

theorem afterRuns_cons (fm : FingerprintManager Cfg Nd Resp Err W) (entry : Entry)
    (s : State Cfg Nd Resp Err W) (r : InitialRun Cfg Nd Resp Err W)
    (runs : List (InitialRun Cfg Nd Resp Err W)) (w1 w2 : W) :
    afterRuns fm entry (afterRuns fm entry s [r] w1) runs w2
      = afterRuns fm entry s (r :: runs) w2 := by
  simp [afterRuns, mergeAll, List.append_assoc]

/-- A name that does not resolve ends the setup loop with that error. -/
theorem setupFrom_cons_unresolved (fm : FingerprintManager Cfg Nd Resp Err W) (entry : Entry)
    (w0 : W) (name : String) (rest : List String) (s : State Cfg Nd Resp Err W) (e : Err)
    (hresolve : resolve fm entry w0 name = Except.error e) :
    setupFrom fm entry w0 (name :: rest) s
      = (some e,
          { s with
            logs := s.logs ++ resolveFailureLogs entry name e
            calls := s.calls ++ [resolveCall entry name] }) := by
  cases entry <;> simp only [resolve] at hresolve <;>
    simp [setupFrom, SetupFingerprints, SetupDrivers.loop, hresolve, resolveFailureLogs,
      resolveCall]

/-- A detector whose initial run fails ends the setup loop with that error. -/
theorem setupFrom_cons_failed (fm : FingerprintManager Cfg Nd Resp Err W) (entry : Entry)
    (w0 : W) (name : String) (rest : List String) (s : State Cfg Nd Resp Err W)
    (f : Fingerprint Cfg Nd Resp Err W) (e : Err) (r : Resp) (w1 : W)
    (hresolve : resolve fm entry w0 name = Except.ok f)
    (hrun : f.Fingerprint { Config := fm.getConfig s.world, Node := s.node } default s.world
      = { err := some e, response := r, world := w1 }) :
    setupFrom fm entry w0 (name :: rest) s
      = (some e,
          { s with
            world := w1
            logs := s.logs ++ runFailureLogs entry name e
            calls := s.calls ++ [resolveCall entry name,
              Call.Fingerprint name { Config := fm.getConfig s.world, Node := s.node }
                (some e) r] }) := by
  cases entry <;> simp only [resolve] at hresolve <;>
    simp [setupFrom, SetupFingerprints, SetupDrivers.loop, hresolve, fingerprint, hrun,
      runFailureLogs, resolveCall]

/-- A detector that resolves and runs successfully moves the setup loop to the
rest of its list. -/
theorem setupFrom_cons_ok (fm : FingerprintManager Cfg Nd Resp Err W) (entry : Entry)
    (w0 : W) (name : String) (rest : List String) (s : State Cfg Nd Resp Err W)
    (f : Fingerprint Cfg Nd Resp Err W) (r : Resp) (w1 : W)
    (hresolve : resolve fm entry w0 name = Except.ok f)
    (hrun : f.Fingerprint { Config := fm.getConfig s.world, Node := s.node } default s.world
      = { err := none, response := r, world := w1 }) :
    setupFrom fm entry w0 (name :: rest) s
      = setupFrom fm entry w0 rest
          (afterRuns fm entry s
            [{ name := name, f := f, world := s.world,
               request := { Config := fm.getConfig s.world, Node := s.node },
               response := r }] w1) := by
  cases s
  cases entry <;> simp only [resolve] at hresolve <;>
    simp only [setupFrom, SetupFingerprints, SetupDrivers.loop, hresolve, fingerprint, hrun,
      afterRuns, mergeAll, InitialRun.calls, InitialRun.tasks, resolveCall, go,
      List.flatMap_cons, List.flatMap_nil, List.foldl_cons, List.foldl_nil, List.append_nil] <;>
    by_cases hp : f.Periodic.1 = true <;> simp [hp]

/-- After the successful runs of a first part of the list the setup loop is at
the rest of the list, in the state the runs leave. -/
theorem setupFrom_append (fm : FingerprintManager Cfg Nd Resp Err W) (entry : Entry) (w0 : W)
    {names : List String} {node : Nd} {w w1 : W} {runs : List (InitialRun Cfg Nd Resp Err W)}
    (h : InitialRuns fm entry w0 names node w runs w1) :
    ∀ (rest : List String) (s : State Cfg Nd Resp Err W), s.node = node → s.world = w →
      setupFrom fm entry w0 (names ++ rest) s
        = setupFrom fm entry w0 rest (afterRuns fm entry s runs w1) := by
  induction h with
  | nil node w =>
    intro rest s _ hw
    rw [← hw, afterRuns_nil]
    rfl
  | cons hresolve hrun _ ih =>
    intro rest s hn hw
    subst hn hw
    rw [List.cons_append, setupFrom_cons_ok fm entry w0 _ _ s _ _ _ hresolve hrun,
      ih rest _ rfl rfl, afterRuns_cons]

theorem fingerprinted_calls (entry : Entry) (runs : List (InitialRun Cfg Nd Resp Err W)) :
    (runs.flatMap (InitialRun.calls entry)).filterMap Call.fingerprinted
      = runs.map (fun r => (r.name, r.request)) := by
  induction runs with
  | nil => rfl
  | cons r runs ih =>
    rw [List.flatMap_cons, List.filterMap_append, ih]
    cases entry <;> by_cases hp : r.f.Periodic.1 = true <;>
      simp [InitialRun.calls, resolveCall, Call.fingerprinted, hp]

/-- Every setup call either runs all its detectors successfully, or has a first
name that fails after the successful runs of the names before it. -/
theorem setupFrom_outcome (fm : FingerprintManager Cfg Nd Resp Err W) (entry : Entry) (w0 : W) :
    ∀ (names : List String) (s : State Cfg Nd Resp Err W),
      (∃ runs w, InitialRuns fm entry w0 names s.node s.world runs w ∧
          setupFrom fm entry w0 names s = (none, afterRuns fm entry s runs w)) ∨
      (∃ pre name post runs w e, names = pre ++ name :: post ∧
          InitialRuns fm entry w0 pre s.node s.world runs w ∧
          FailsWith fm entry w0 name (mergeAll fm s.node runs) w e ∧
          (setupFrom fm entry w0 names s).1 = some e) := by
  intro names
  induction names with
  | nil =>
    intro s
    exact Or.inl ⟨[], s.world, InitialRuns.nil _ _, by rw [setupFrom_nil, afterRuns_nil]⟩
  | cons name rest ih =>
    intro s
    cases hres : resolve fm entry w0 name with
    | error e =>
      refine Or.inr ⟨[], name, rest, [], s.world, e, rfl, InitialRuns.nil _ _, Or.inl hres, ?_⟩
      rw [setupFrom_cons_unresolved fm entry w0 name rest s e hres]
    | ok f =>
      cases hout : f.Fingerprint { Config := fm.getConfig s.world, Node := s.node } default
          s.world with
      | mk err r w1 =>
        cases err with
        | some e =>
          refine Or.inr ⟨[], name, rest, [], s.world, e, rfl, InitialRuns.nil _ _,
            Or.inr ⟨f, hres, ?_⟩, ?_⟩
          · show (f.Fingerprint { Config := fm.getConfig s.world, Node := s.node } default
              s.world).err = some e
            rw [hout]
          · rw [setupFrom_cons_failed fm entry w0 name rest s f e r w1 hres hout]
        | none =>
          rw [setupFrom_cons_ok fm entry w0 name rest s f r w1 hres hout]
          rcases ih (afterRuns fm entry s
              [{ name := name, f := f, world := s.world,
                 request := { Config := fm.getConfig s.world, Node := s.node },
                 response := r }] w1) with
            ⟨runs, w, hruns, heq⟩ | ⟨pre, nm, post, runs, w, e, hnames, hruns, hfail, heq⟩
          · refine Or.inl ⟨_ :: runs, w, InitialRuns.cons hres hout hruns, ?_⟩
            rw [heq, afterRuns_cons]
          · refine Or.inr ⟨name :: pre, nm, post, _ :: runs, w, e, ?_,
              InitialRuns.cons hres hout hruns, hfail, heq⟩
            rw [hnames]
            rfl

/-- The first failing name ends the setup call with its error. -/
theorem setupFrom_first_failure (fm : FingerprintManager Cfg Nd Resp Err W) (entry : Entry)
    (w0 : W) (s : State Cfg Nd Resp Err W) (pre post : List String) (name : String)
    (runs : List (InitialRun Cfg Nd Resp Err W)) (w : W) (e : Err)
    (hpre : InitialRuns fm entry w0 pre s.node s.world runs w)
    (hfail : FailsWith fm entry w0 name (mergeAll fm s.node runs) w e) :
    ∃ tl : List (Call Cfg Nd Resp Err),
      (setupFrom fm entry w0 (pre ++ name :: post) s).1 = some e ∧
      (setupFrom fm entry w0 (pre ++ name :: post) s).2.tasks
        = s.tasks ++ runs.flatMap InitialRun.tasks ∧
      (setupFrom fm entry w0 (pre ++ name :: post) s).2.calls
        = s.calls ++ runs.flatMap (InitialRun.calls entry) ++ tl ∧
      ∀ c ∈ tl, (∀ n, c ≠ Call.Periodic n) ∧ (∀ n p, c ≠ Call.go n p) := by
  rw [setupFrom_append fm entry w0 hpre (name :: post) s rfl rfl]
  rcases hfail with hres | ⟨f, hres, herr⟩
  · rw [setupFrom_cons_unresolved fm entry w0 name post _ e hres]
    refine ⟨[resolveCall entry name], rfl, rfl, rfl, ?_⟩
    intro c hc
    cases entry <;> simp [resolveCall] at hc <;> subst hc <;> simp
  · cases hout : f.Fingerprint
        { Config := fm.getConfig w, Node := mergeAll fm s.node runs } default w with
    | mk err r w1 =>
      rw [hout] at herr
      simp only at herr
      subst herr
      rw [setupFrom_cons_failed fm entry w0 name post (afterRuns fm entry s runs w) f e r w1
        hres hout]
      refine ⟨[resolveCall entry name, Call.Fingerprint name
        { Config := fm.getConfig w, Node := mergeAll fm s.node runs } (some e) r],
        rfl, rfl, rfl, ?_⟩
      intro c hc
      cases entry <;> simp [resolveCall] at hc <;> rcases hc with hc | hc <;> subst hc <;> simp

/-- The tasks of a list of successful runs: one per periodic detector. -/
theorem tasks_eq_filter (runs : List (InitialRun Cfg Nd Resp Err W)) :
    runs.flatMap InitialRun.tasks
      = (runs.filter (fun r => r.f.Periodic.1)).map
          (fun r => { f := r.f, period := r.f.Periodic.2, name := r.name }) := by
  induction runs with
  | nil => rfl
  | cons r runs ih =>
    by_cases hp : r.f.Periodic.1 = true <;>
      simp [List.flatMap_cons, InitialRun.tasks, hp, List.filter_cons, ih]

/-! ### Setup -/

/-- C4. For either setup entry point and every list `pre ++ rest` in which the
names of `pre` all resolve and run successfully (with responses `runs`) and
`rest` is either empty or starts with a name that fails (to resolve, or in its
initial Fingerprint call): the tasks spawned by the call are exactly one task
per detector of `pre` whose `Periodic()` returns true, bound to the detector,
the interval and the name, in list order; and the calls made are the calls of
the successful runs (in each of which `Periodic()` and the `go` statement come
after the successful Fingerprint call and its merge) followed by calls among
which there is no `Periodic()` and no `go`.  So the failing name gets no task,
and the tasks spawned before the abort stay spawned. -/
theorem setup_spawns_periodic_tasks (fm : FingerprintManager Cfg Nd Resp Err W) (entry : Entry)
    (s : State Cfg Nd Resp Err W) (pre rest : List String)
    (runs : List (InitialRun Cfg Nd Resp Err W)) (w : W)
    (hpre : InitialRuns fm entry s.world pre s.node s.world runs w)
    (hstop : rest = [] ∨ ∃ name post e, rest = name :: post ∧
      FailsWith fm entry s.world name (mergeAll fm s.node runs) w e) :
    (setup fm entry (pre ++ rest) s).2.tasks
        = s.tasks ++ (runs.filter (fun r => r.f.Periodic.1)).map
            (fun r => { f := r.f, period := r.f.Periodic.2, name := r.name }) ∧
      ∃ tl : List (Call Cfg Nd Resp Err),
        (setup fm entry (pre ++ rest) s).2.calls
          = s.calls ++ runs.flatMap (InitialRun.calls entry) ++ tl ∧
        ∀ c ∈ tl, (∀ n, c ≠ Call.Periodic n) ∧ (∀ n p, c ≠ Call.go n p) := by
  rw [setup_eq_setupFrom, ← tasks_eq_filter runs]
  rcases hstop with hnil | ⟨name, post, e, hrest, hfail⟩
  · subst hnil
    rw [setupFrom_append fm entry s.world hpre [] s rfl rfl, setupFrom_nil]
    exact ⟨rfl, [], by simp [afterRuns], by simp⟩
  · subst hrest
    obtain ⟨tl, _, htasks2, hcalls, htl⟩ :=
      setupFrom_first_failure fm entry s.world s pre post name runs w e hpre hfail
    exact ⟨htasks2, tl, hcalls, htl⟩

/-! ### The periodic task -/

theorem run_loop_cons_tick (fm : FingerprintManager Cfg Nd Resp Err W)
    (f : Fingerprint Cfg Nd Resp Err W) (name : String) (wk : Wake) (ws : List Wake)
    (s : State Cfg Nd Resp Err W) (htick : select wk = some SelectCase.timer) :
    run.loop fm f name (wk :: ws) s = run.loop fm f name ws (afterTick fm name f s) := by
  rw [run.loop, htick]
  simp only [afterTick]
  cases hfp : fingerprint fm name f s with
  | mk err s1 => cases err <;> rfl

theorem run_loop_cons_shutdown (fm : FingerprintManager Cfg Nd Resp Err W)
    (f : Fingerprint Cfg Nd Resp Err W) (name : String) (wk : Wake) (ws : List Wake)
    (s : State Cfg Nd Resp Err W) (hsd : select wk = some SelectCase.shutdown) :
    run.loop fm f name (wk :: ws) s = (Phase.TERMINATED, s) := by
  rw [run.loop, hsd]

theorem run_loop_cons_blocked (fm : FingerprintManager Cfg Nd Resp Err W)
    (f : Fingerprint Cfg Nd Resp Err W) (name : String) (wk : Wake) (ws : List Wake)
    (s : State Cfg Nd Resp Err W) (hnone : select wk = none) :
    run.loop fm f name (wk :: ws) s = run.loop fm f name ws s := by
  rw [run.loop, hnone]

/-- A task that is waiting after some wake-ups goes on from there with the
wake-ups that follow. -/
theorem run_loop_append (fm : FingerprintManager Cfg Nd Resp Err W)
    (f : Fingerprint Cfg Nd Resp Err W) (name : String) (ws : List Wake) :
    ∀ (before : List Wake) (s0 s : State Cfg Nd Resp Err W),
      run.loop fm f name before s0 = (Phase.WAITING, s) →
      run.loop fm f name (before ++ ws) s0 = run.loop fm f name ws s := by
  intro before
  induction before with
  | nil =>
    intro s0 s h
    simp only [run.loop, Prod.mk.injEq, true_and] at h
    rw [List.nil_append, h]
  | cons wk before ih =>
    intro s0 s h
    rw [List.cons_append]
    cases hsel : select wk with
    | none =>
      rw [run_loop_cons_blocked fm f name wk _ s0 hsel] at h ⊢
      exact ih s0 s h
    | some c =>
      cases c with
      | timer =>
        rw [run_loop_cons_tick fm f name wk _ s0 hsel] at h ⊢
        exact ih _ s h
      | shutdown =>
        rw [run_loop_cons_shutdown fm f name wk _ s0 hsel] at h
        simp at h

/-- A task is terminated exactly when one of its wake-ups took the shutdown
clause. -/
theorem run_loop_terminated_iff (fm : FingerprintManager Cfg Nd Resp Err W)
    (f : Fingerprint Cfg Nd Resp Err W) (name : String) :
    ∀ (ws : List Wake) (s : State Cfg Nd Resp Err W),
      (run.loop fm f name ws s).1 = Phase.TERMINATED ↔
        ∃ w ∈ ws, select w = some SelectCase.shutdown := by
  intro ws
  induction ws with
  | nil =>
    intro s
    simp [run.loop]
  | cons wk ws ih =>
    intro s
    cases hsel : select wk with
    | none =>
      rw [run_loop_cons_blocked fm f name wk ws s hsel, ih]
      simp [hsel]
    | some c =>
      cases c with
      | timer =>
        rw [run_loop_cons_tick fm f name wk ws s hsel, ih]
        simp [hsel]
      | shutdown =>
        rw [run_loop_cons_shutdown fm f name wk ws s hsel]
        simp [hsel]

/-- One tick makes one Fingerprint call and merges its response when, and only
when, the call returned no error. -/
theorem afterTick_calls (fm : FingerprintManager Cfg Nd Resp Err W) (name : String)
    (f : Fingerprint Cfg Nd Resp Err W) (s : State Cfg Nd Resp Err W) :
    ∃ new : List (Call Cfg Nd Resp Err),
      (afterTick fm name f s).calls = s.calls ++ new ∧
      (new.filterMap Call.fingerprinted).length = 1 ∧
      (afterTick fm name f s).node
        = (new.filterMap Call.succeeded).foldl fm.updateNodeFromFingerprint s.node := by
  cases hout : f.Fingerprint { Config := fm.getConfig s.world, Node := s.node } default
      s.world with
  | mk err r w1 =>
    cases err with
    | some e =>
      exact ⟨[Call.Fingerprint name { Config := fm.getConfig s.world, Node := s.node }
        (some e) r], by simp [afterTick, fingerprint, hout],
        by simp [Call.fingerprinted],
        by simp [afterTick, fingerprint, hout, Call.succeeded]⟩
    | none =>
      exact ⟨[Call.Fingerprint name { Config := fm.getConfig s.world, Node := s.node }
        none r, Call.updateNodeFromFingerprint r], by simp [afterTick, fingerprint, hout],
        by simp [Call.fingerprinted],
        by simp [afterTick, fingerprint, hout, Call.succeeded]⟩

/-- The record of calls of a task only grows. -/
theorem run_loop_calls (fm : FingerprintManager Cfg Nd Resp Err W)
    (f : Fingerprint Cfg Nd Resp Err W) (name : String) :
    ∀ (ws : List Wake) (s : State Cfg Nd Resp Err W),
      ∃ tl : List (Call Cfg Nd Resp Err), (run.loop fm f name ws s).2.calls = s.calls ++ tl := by
  intro ws
  induction ws with
  | nil =>
    intro s
    exact ⟨[], by simp [run.loop]⟩
  | cons wk ws ih =>
    intro s
    cases hsel : select wk with
    | none =>
      rw [run_loop_cons_blocked fm f name wk ws s hsel]
      exact ih s
    | some c =>
      cases c with
      | timer =>
        rw [run_loop_cons_tick fm f name wk ws s hsel]
        obtain ⟨new, hnew, _, _⟩ := afterTick_calls fm name f s
        obtain ⟨tl, htl⟩ := ih (afterTick fm name f s)
        exact ⟨new ++ tl, by rw [htl, hnew, List.append_assoc]⟩
      | shutdown =>
        rw [run_loop_cons_shutdown fm f name wk ws s hsel]
        exact ⟨[], by simp⟩

/-- The first call of a tick is the Fingerprint call of the detector, with the
current configuration and node document. -/
theorem afterTick_first_call (fm : FingerprintManager Cfg Nd Resp Err W) (name : String)
    (f : Fingerprint Cfg Nd Resp Err W) (s : State Cfg Nd Resp Err W) :
    ∃ tl : List (Call Cfg Nd Resp Err),
      (afterTick fm name f s).calls
        = s.calls ++ Call.Fingerprint name { Config := fm.getConfig s.world, Node := s.node }
            (f.Fingerprint { Config := fm.getConfig s.world, Node := s.node } default
              s.world).err
            (f.Fingerprint { Config := fm.getConfig s.world, Node := s.node } default
              s.world).response :: tl := by
  cases hout : f.Fingerprint { Config := fm.getConfig s.world, Node := s.node } default
      s.world with
  | mk err r w1 =>
    cases err with
    | some e => exact ⟨[], by simp [afterTick, fingerprint, hout]⟩
    | none =>
      exact ⟨[Call.updateNodeFromFingerprint r], by simp [afterTick, fingerprint, hout]⟩

/-- C5. In the loop of `run`, at any point where the task is waiting (after the
wake-ups `before`, in state `s`): if the next wake-up takes the timer clause
and the Fingerprint call of the detector fails with `e`, then the task is
waiting again, the node document is the one before the tick, and the only
effects are the recorded call and the log line of the failure (`run` has no
result through which an error could leave the task); if the wake-up after
that takes the timer clause again, the detector is called again, with the
node document unchanged; and a task is terminated if and only if one of its
wake-ups took the shutdown clause. -/
theorem run_survives_failed_tick (fm : FingerprintManager Cfg Nd Resp Err W)
    (f : Fingerprint Cfg Nd Resp Err W) (period : Duration) (name : String)
    (before : List Wake) (s0 s : State Cfg Nd Resp Err W) (wk : Wake)
    (e : Err) (r : Resp) (w1 : W)
    (hreach : run fm f period name before s0 = (Phase.WAITING, s))
    (htick : select wk = some SelectCase.timer)
    (hfail : f.Fingerprint { Config := fm.getConfig s.world, Node := s.node } default s.world
      = { err := some e, response := r, world := w1 }) :
    run fm f period name (before ++ [wk]) s0
        = (Phase.WAITING,
            { node := s.node
              world := w1
              logs := s.logs ++ [LogEvent.periodicFailed name e]
              calls := s.calls ++
                [Call.Fingerprint name { Config := fm.getConfig s.world, Node := s.node }
                  (some e) r]
              tasks := s.tasks }) ∧
      (∀ (wk2 : Wake) (ws : List Wake), select wk2 = some SelectCase.timer →
        ∃ tl : List (Call Cfg Nd Resp Err),
          (run fm f period name (before ++ wk :: wk2 :: ws) s0).2.calls
            = s.calls ++
              [Call.Fingerprint name { Config := fm.getConfig s.world, Node := s.node }
                (some e) r,
               Call.Fingerprint name { Config := fm.getConfig w1, Node := s.node }
                (f.Fingerprint { Config := fm.getConfig w1, Node := s.node } default w1).err
                (f.Fingerprint { Config := fm.getConfig w1, Node := s.node } default
                  w1).response] ++ tl) ∧
      (∀ (wakes : List Wake) (s2 : State Cfg Nd Resp Err W),
        (run fm f period name wakes s2).1 = Phase.TERMINATED ↔
          ∃ w ∈ wakes, select w = some SelectCase.shutdown) := by
  have htick1 : afterTick fm name f s
      = { node := s.node
          world := w1
          logs := s.logs ++ [LogEvent.periodicFailed name e]
          calls := s.calls ++
            [Call.Fingerprint name { Config := fm.getConfig s.world, Node := s.node }
              (some e) r]
          tasks := s.tasks } := by
    simp [afterTick, fingerprint, hfail]
  unfold run at hreach ⊢
  refine ⟨?_, ?_, ?_⟩
  · rw [run_loop_append fm f name [wk] before _ s hreach,
      run_loop_cons_tick fm f name wk [] s htick, htick1]
    rfl
  · intro wk2 ws htick2
    rw [run_loop_append fm f name (wk :: wk2 :: ws) before _ s hreach,
      run_loop_cons_tick fm f name wk _ s htick,
      run_loop_cons_tick fm f name wk2 _ _ htick2]
    obtain ⟨tl2, htl2⟩ := run_loop_calls fm f name ws (afterTick fm name f (afterTick fm name f s))
    obtain ⟨tl1, htl1⟩ := afterTick_first_call fm name f (afterTick fm name f s)
    refine ⟨tl1 ++ tl2, ?_⟩
    rw [htl2, htl1, htick1]
    simp [List.append_assoc]
  · intro wakes s2
    exact run_loop_terminated_iff fm f name wakes _

/-- C6, as the code has it. In the loop of `run`, at any point where the task
is waiting (after the wake-ups `before`, in state `s`): if the shutdown
channel can be received from and `select` takes the shutdown clause, which it
does whenever the timer channel cannot be received from, then the task is
terminated in the very state `s`, without a call to the detector and without a
merge, and whatever wake-ups `ws` follow have no effect.  When the timer
channel can be received from as well, `select` may take either clause. -/
theorem run_terminates_on_selected_shutdown (fm : FingerprintManager Cfg Nd Resp Err W)
    (f : Fingerprint Cfg Nd Resp Err W) (period : Duration) (name : String)
    (before ws : List Wake) (s0 s : State Cfg Nd Resp Err W) (wk : Wake)
    (hreach : run fm f period name before s0 = (Phase.WAITING, s))
    (hfired : wk.shutdown = true)
    (hselected : wk.timer = false ∨ wk.pick = SelectCase.shutdown) :
    run fm f period name (before ++ wk :: ws) s0 = (Phase.TERMINATED, s) := by
  have hsel : select wk = some SelectCase.shutdown := by
    rcases hselected with h | h
    · simp [select, hfired, h]
    · cases ht : wk.timer <;> simp [select, hfired, h, ht]
  unfold run at hreach ⊢
  rw [run_loop_append fm f name (wk :: ws) before _ s hreach,
    run_loop_cons_shutdown fm f name wk ws s hsel]

/-- C8. For every run of a detector through `fingerprint` in which the detector
returns no error and leaves the response variable as it received it (the zero
value, an empty response), and for every merge that is the identity on the
empty response: `fingerprint` returns no error, its only calls are the
Fingerprint call and one merge, of that response, and the node document after
the run is the one before the run; the same holds for the node document after
a tick of the periodic task. -/
theorem fingerprint_unchanged_response (fm : FingerprintManager Cfg Nd Resp Err W)
    (name : String) (f : Fingerprint Cfg Nd Resp Err W) (s : State Cfg Nd Resp Err W)
    (r : Resp) (w1 : W)
    (hok : f.Fingerprint { Config := fm.getConfig s.world, Node := s.node } default s.world
      = { err := none, response := r, world := w1 })
    (hunchanged : r = default)
    (hidentity : ∀ node : Nd, fm.updateNodeFromFingerprint node default = node) :
    fingerprint fm name f s
        = (none,
            { node := s.node
              world := w1
              logs := s.logs
              calls := s.calls ++
                [Call.Fingerprint name { Config := fm.getConfig s.world, Node := s.node }
                  none default,
                 Call.updateNodeFromFingerprint default]
              tasks := s.tasks }) ∧
      (fingerprint fm name f s).2.node = s.node ∧
      ∀ wk : Wake, select wk = some SelectCase.timer →
        (run.loop fm f name [wk] s).2.node = s.node := by
  subst hunchanged
  have hfp : fingerprint fm name f s
      = (none,
          { node := s.node
            world := w1
            logs := s.logs
            calls := s.calls ++
              [Call.Fingerprint name { Config := fm.getConfig s.world, Node := s.node }
                none default,
               Call.updateNodeFromFingerprint default]
            tasks := s.tasks }) := by
    simp [fingerprint, hok, hidentity]
  refine ⟨hfp, by rw [hfp], ?_⟩
  intro wk htick
  rw [run_loop_cons_tick fm f name wk [] s htick]
  simp [run.loop, afterTick, hfp]

/-! ### Setup beside the started tasks -/

theorem callsOf_append (actor : Actor) (h1 h2 : List (Actor × Call Cfg Nd Resp Err)) :
    callsOf actor (h1 ++ h2) = callsOf actor h1 ++ callsOf actor h2 := by
  simp [callsOf, List.filterMap_append]

theorem merged_append (c1 c2 : List (Call Cfg Nd Resp Err)) :
    merged (c1 ++ c2) = merged c1 ++ merged c2 := by
  simp [merged, List.filterMap_append]

theorem agent_extends_refl (fm : FingerprintManager Cfg Nd Resp Err W)
    (a : Agent Cfg Nd Resp Err W) : Agent.Extends fm a a [] [] :=
  ⟨[], by simp, rfl, rfl, by simp⟩

theorem agent_extends_trans (fm : FingerprintManager Cfg Nd Resp Err W)
    {a b c : Agent Cfg Nd Resp Err W} {c1 c2 : List (Call Cfg Nd Resp Err)}
    {t1 t2 : List (Task Cfg Nd Resp Err W)}
    (h1 : Agent.Extends fm a b c1 t1) (h2 : Agent.Extends fm b c c2 t2) :
    Agent.Extends fm a c (c1 ++ c2) (t1 ++ t2) := by
  obtain ⟨n1, hh1, hc1, hn1, ht1⟩ := h1
  obtain ⟨n2, hh2, hc2, hn2, ht2⟩ := h2
  refine ⟨n1 ++ n2, ?_, ?_, ?_, ?_⟩
  · rw [hh2, hh1, List.append_assoc]
  · rw [callsOf_append, hc1, hc2]
  · rw [hn2, hn1, List.map_append, merged_append, List.foldl_append]
  · rw [ht2, ht1, List.append_assoc]

/-- A step of a started task adds no call of the setup goroutine, starts no
task, and changes the node document only by the merge it records. -/
theorem agent_step_extends (fm : FingerprintManager Cfg Nd Resp Err W)
    (a : Agent Cfg Nd Resp Err W) (i : Nat) (wk : Wake) :
    Agent.Extends fm a (a.step fm i wk) [] [] := by
  unfold Agent.step
  cases a.tasks[i]? with
  | none => exact agent_extends_refl fm a
  | some t =>
    cases a.pc i with
    | start => exact ⟨[], by simp, rfl, rfl, by simp⟩
    | waiting =>
      cases select wk with
      | none => exact agent_extends_refl fm a
      | some c =>
        cases c with
        | shutdown => exact ⟨[], by simp, rfl, rfl, by simp⟩
        | timer =>
          cases hout : t.f.Fingerprint { Config := fm.getConfig a.world, Node := a.node } default
              a.world with
          | mk err r w1 =>
            cases err with
            | some e =>
              exact ⟨[(Actor.task i, Call.Fingerprint t.name
                { Config := fm.getConfig a.world, Node := a.node } (some e) r)],
                by simp [hout], by simp [callsOf], by simp [hout, merged], by simp [hout]⟩
            | none =>
              exact ⟨[(Actor.task i, Call.Fingerprint t.name
                { Config := fm.getConfig a.world, Node := a.node } none r)],
                by simp [hout], by simp [callsOf], by simp [hout, merged], by simp [hout]⟩
    | merging r =>
      exact ⟨[(Actor.task i, Call.updateNodeFromFingerprint r)], by simp, by simp [callsOf],
        by simp [merged], by simp⟩
    | returned => exact agent_extends_refl fm a

theorem agent_steps_extends (fm : FingerprintManager Cfg Nd Resp Err W) (burst : Burst) :
    ∀ a : Agent Cfg Nd Resp Err W, Agent.Extends fm a (a.steps fm burst) [] [] := by
  induction burst with
  | nil => exact fun a => agent_extends_refl fm a
  | cons p burst ih =>
    intro a
    have h := agent_extends_trans fm (agent_step_extends fm a p.1 p.2) (ih (a.step fm p.1 p.2))
    simpa [Agent.steps] using h

theorem agent_atPoint_extends (fm : FingerprintManager Cfg Nd Resp Err W)
    (a : Agent Cfg Nd Resp Err W) (sched : Schedule) :
    Agent.Extends fm a (a.atPoint fm sched) [] [] :=
  agent_steps_extends fm _ a

/-- The setup goroutine records what it calls; a record of calls that are not
merges leaves the node document alone. -/
theorem agent_record_extends (fm : FingerprintManager Cfg Nd Resp Err W)
    (a b : Agent Cfg Nd Resp Err W) (calls : List (Call Cfg Nd Resp Err))
    (ts : List (Task Cfg Nd Resp Err W))
    (hhistory : b.history = a.history ++ calls.map (fun c => (Actor.setup, c)))
    (hnode : b.node = (merged calls).foldl fm.updateNodeFromFingerprint a.node)
    (htasks : b.tasks = a.tasks ++ ts) :
    Agent.Extends fm a b calls ts := by
  refine ⟨calls.map (fun c => (Actor.setup, c)), hhistory, ?_, ?_, htasks⟩
  · simp [callsOf, List.filterMap_map, Function.comp_def]
  · rw [hnode, List.map_map]
    simp [Function.comp_def]

theorem interleaved_setup_eq_setupFrom (fm : FingerprintManager Cfg Nd Resp Err W)
    (entry : Entry) (names : List String) (sched : Schedule) (a : Agent Cfg Nd Resp Err W) :
    Interleaved.setup fm entry names sched a
      = Interleaved.setupFrom fm entry a.world names sched a := by
  cases entry <;> rfl

theorem interleaved_setupFrom_nil (fm : FingerprintManager Cfg Nd Resp Err W) (entry : Entry)
    (w0 : W) (sched : Schedule) (a : Agent Cfg Nd Resp Err W) :
    Interleaved.setupFrom fm entry w0 [] sched a = (none, a.atPoint fm sched) := by
  cases entry <;> rfl

/-- Beside the started tasks too, a name that does not resolve ends the setup
loop with that error, after the burst before the iteration. -/
theorem interleaved_setupFrom_cons_unresolved (fm : FingerprintManager Cfg Nd Resp Err W)
    (entry : Entry) (w0 : W) (name : String) (rest : List String) (sched : Schedule)
    (a : Agent Cfg Nd Resp Err W) (e : Err)
    (hresolve : resolve fm entry w0 name = Except.error e) :
    Interleaved.setupFrom fm entry w0 (name :: rest) sched a
      = (some e,
          { a.atPoint fm sched with
            logs := (a.atPoint fm sched).logs ++ resolveFailureLogs entry name e
            history := (a.atPoint fm sched).history ++ [(Actor.setup, resolveCall entry name)] })
    := by
  cases entry <;> simp only [resolve] at hresolve <;>
    simp only [Interleaved.setupFrom, Interleaved.SetupFingerprints,
      Interleaved.SetupDrivers.loop, hresolve, resolveFailureLogs, resolveCall, Agent.atPoint,
      List.append_nil]

/-- Beside the started tasks too, a detector whose initial run fails ends the
setup loop with that error, after the burst that follows the call. -/
theorem interleaved_setupFrom_cons_failed (fm : FingerprintManager Cfg Nd Resp Err W)
    (entry : Entry) (w0 : W) (name : String) (rest : List String) (sched : Schedule)
    (a : Agent Cfg Nd Resp Err W) (f : Fingerprint Cfg Nd Resp Err W) (e : Err) (r : Resp)
    (w1 : W)
    (hresolve : resolve fm entry w0 name = Except.ok f)
    (hrun : f.Fingerprint
        { Config := fm.getConfig (a.atPoint fm sched).world, Node := (a.atPoint fm sched).node }
        default (a.atPoint fm sched).world
      = { err := some e, response := r, world := w1 }) :
    Interleaved.setupFrom fm entry w0 (name :: rest) sched a
      = (some e,
          { Agent.atPoint fm
              { a.atPoint fm sched with
                world := w1
                history := (a.atPoint fm sched).history ++
                  [(Actor.setup, resolveCall entry name),
                    (Actor.setup, Call.Fingerprint name
                      { Config := fm.getConfig (a.atPoint fm sched).world,
                        Node := (a.atPoint fm sched).node } (some e) r)] }
              sched.tail with
            logs := (Agent.atPoint fm
              { a.atPoint fm sched with
                world := w1
                history := (a.atPoint fm sched).history ++
                  [(Actor.setup, resolveCall entry name),
                    (Actor.setup, Call.Fingerprint name
                      { Config := fm.getConfig (a.atPoint fm sched).world,
                        Node := (a.atPoint fm sched).node } (some e) r)] }
              sched.tail).logs ++ runFailureLogs entry name e }) := by
  simp only [Agent.atPoint] at hrun
  cases entry <;> simp only [resolve] at hresolve <;>
    simp only [Interleaved.setupFrom, Interleaved.SetupFingerprints,
      Interleaved.SetupDrivers.loop, hresolve, hrun, runFailureLogs, resolveCall, Agent.atPoint,
      List.append_assoc, List.cons_append, List.nil_append, List.append_nil]

/-- Beside the started tasks too, a detector that resolves and runs
successfully moves the setup loop to the rest of its list. -/
theorem interleaved_setupFrom_cons_ok (fm : FingerprintManager Cfg Nd Resp Err W)
    (entry : Entry) (w0 : W) (name : String) (rest : List String) (sched : Schedule)
    (a : Agent Cfg Nd Resp Err W) (f : Fingerprint Cfg Nd Resp Err W) (r : Resp) (w1 : W)
    (hresolve : resolve fm entry w0 name = Except.ok f)
    (hrun : f.Fingerprint
        { Config := fm.getConfig (a.atPoint fm sched).world, Node := (a.atPoint fm sched).node }
        default (a.atPoint fm sched).world
      = { err := none, response := r, world := w1 }) :
    Interleaved.setupFrom fm entry w0 (name :: rest) sched a
      = Interleaved.setupFrom fm entry w0 rest sched.tail.tail
          (a.afterRun fm entry sched
            { name := name, f := f, world := (a.atPoint fm sched).world,
              request := { Config := fm.getConfig (a.atPoint fm sched).world,
                           Node := (a.atPoint fm sched).node },
              response := r } w1) := by
  simp only [Agent.atPoint] at hrun
  cases entry <;> simp only [resolve] at hresolve <;>
    simp only [Interleaved.setupFrom, Interleaved.SetupFingerprints,
      Interleaved.SetupDrivers.loop, hresolve, hrun, Agent.afterRun, Agent.atPoint,
      InitialRun.tasks, resolveCall, List.append_assoc, List.cons_append, List.nil_append] <;>
    by_cases hp : f.Periodic.1 = true <;>
    simp only [hp, if_true, if_false, Bool.false_eq_true, List.append_assoc, List.cons_append,
      List.nil_append, List.append_nil]

/-- After the successful runs of a first part of the list, under the schedule,
the setup loop is at the rest of the list, with the agent and the schedule the
runs leave. -/
theorem interleaved_setupFrom_append (fm : FingerprintManager Cfg Nd Resp Err W) (entry : Entry)
    (w0 : W) {names : List String} {sched sched1 : Schedule} {a a1 : Agent Cfg Nd Resp Err W}
    {runs : List (InitialRun Cfg Nd Resp Err W)}
    (h : InterleavedRuns fm entry w0 names sched a runs sched1 a1) (rest : List String) :
    Interleaved.setupFrom fm entry w0 (names ++ rest) sched a
      = Interleaved.setupFrom fm entry w0 rest sched1 a1 := by
  induction h with
  | nil sched a => rfl
  | cons hresolve hrun _ ih =>
    rw [List.cons_append, interleaved_setupFrom_cons_ok fm entry w0 _ _ _ _ _ _ _ hresolve hrun,
      ih]

/-- A successful iteration records the calls of the run for the setup
goroutine, starts the task of the run, and changes the node document by the
merge of the run and the merges of the tasks. -/
theorem agent_afterRun_extends (fm : FingerprintManager Cfg Nd Resp Err W) (entry : Entry)
    (a : Agent Cfg Nd Resp Err W) (sched : Schedule) (run : InitialRun Cfg Nd Resp Err W)
    (w1 : W) :
    Agent.Extends fm a (a.afterRun fm entry sched run w1) (InitialRun.calls entry run)
      run.tasks := by
  have h0 := agent_atPoint_extends fm a sched
  have h1 : Agent.Extends fm (a.atPoint fm sched)
      { a.atPoint fm sched with
        world := w1
        history := (a.atPoint fm sched).history ++
          [(Actor.setup, resolveCall entry run.name),
            (Actor.setup, Call.Fingerprint run.name run.request none run.response)] }
      [resolveCall entry run.name, Call.Fingerprint run.name run.request none run.response] [] :=
    agent_record_extends fm _ _ _ [] rfl (by cases entry <;> simp [merged, resolveCall])
      (by simp)
  have h2 := agent_atPoint_extends fm
    { a.atPoint fm sched with
      world := w1
      history := (a.atPoint fm sched).history ++
        [(Actor.setup, resolveCall entry run.name),
          (Actor.setup, Call.Fingerprint run.name run.request none run.response)] } sched.tail
  have h3 : Agent.Extends fm
      (Agent.atPoint fm
        { a.atPoint fm sched with
          world := w1
          history := (a.atPoint fm sched).history ++
            [(Actor.setup, resolveCall entry run.name),
              (Actor.setup, Call.Fingerprint run.name run.request none run.response)] }
        sched.tail)
      (a.afterRun fm entry sched run w1)
      ([Call.updateNodeFromFingerprint run.response, Call.Periodic run.name] ++
        (if run.f.Periodic.1 then [Call.go run.name run.f.Periodic.2] else []))
      run.tasks := by
    refine agent_record_extends fm _ _ _ _ ?_ ?_ rfl
    · by_cases hp : run.f.Periodic.1 = true <;> simp [Agent.afterRun, hp]
    · by_cases hp : run.f.Periodic.1 = true <;> simp [Agent.afterRun, merged, hp]
  have h := agent_extends_trans fm (agent_extends_trans fm (agent_extends_trans fm h0 h1) h2) h3
  simpa [InitialRun.calls] using h

/-- The successful runs of a list record their calls for the setup goroutine,
in list order, start their tasks, and change the node document by their merges
and the merges of the tasks. -/
theorem interleavedRuns_extends (fm : FingerprintManager Cfg Nd Resp Err W) (entry : Entry)
    (w0 : W) {names : List String} {sched sched1 : Schedule} {a a1 : Agent Cfg Nd Resp Err W}
    {runs : List (InitialRun Cfg Nd Resp Err W)}
    (h : InterleavedRuns fm entry w0 names sched a runs sched1 a1) :
    Agent.Extends fm a a1 (runs.flatMap (InitialRun.calls entry))
      (runs.flatMap InitialRun.tasks) := by
  induction h with
  | nil sched a => exact agent_extends_refl fm a
  | cons _ _ _ ih =>
    have h := agent_extends_trans fm (agent_afterRun_extends fm entry _ _ _ _) ih
    simpa [List.flatMap_cons] using h

theorem merged_run_calls (entry : Entry) (run : InitialRun Cfg Nd Resp Err W) :
    merged (InitialRun.calls entry run) = [run.response] := by
  cases entry <;> by_cases hp : run.f.Periodic.1 = true <;>
    simp [merged, InitialRun.calls, resolveCall, hp]

theorem merged_runs_calls (entry : Entry) (runs : List (InitialRun Cfg Nd Resp Err W)) :
    merged (runs.flatMap (InitialRun.calls entry)) = runs.map InitialRun.response := by
  induction runs with
  | nil => rfl
  | cons r runs ih => rw [List.flatMap_cons, merged_append, merged_run_calls, ih]; rfl

theorem mergeAll_eq_foldl (fm : FingerprintManager Cfg Nd Resp Err W) (node : Nd)
    (runs : List (InitialRun Cfg Nd Resp Err W)) :
    mergeAll fm node runs
      = (runs.map InitialRun.response).foldl fm.updateNodeFromFingerprint node := by
  simp [mergeAll, List.foldl_map]

/-- In a stretch of history in which no started task has merged, the merges
are those of the setup goroutine. -/
theorem merged_of_noTaskMerge (history : List (Actor × Call Cfg Nd Resp Err))
    (h : NoTaskMerge history) :
    merged (history.map Prod.snd) = merged (callsOf Actor.setup history) := by
  induction history with
  | nil => rfl
  | cons p history ih =>
    have hrest : NoTaskMerge history := fun i r hmem => h i r (List.mem_cons_of_mem _ hmem)
    have hsplit : merged ((p :: history).map Prod.snd)
        = merged [p.2] ++ merged (history.map Prod.snd) := by
      rw [List.map_cons, ← merged_append]; rfl
    have hsplit2 : callsOf Actor.setup (p :: history)
        = callsOf Actor.setup [p] ++ callsOf Actor.setup history := by
      rw [← callsOf_append]; rfl
    rw [hsplit, hsplit2, merged_append, ih hrest]
    congr 1
    obtain ⟨actor, c⟩ := p
    cases actor with
    | setup => simp [callsOf]
    | task i =>
      cases c with
      | updateNodeFromFingerprint r => exact absurd (List.mem_cons_self _ _) (h i r)
      | _ => simp [callsOf, merged]

theorem noTaskMerge_left {h1 h2 : List (Actor × Call Cfg Nd Resp Err)}
    (h : NoTaskMerge (h1 ++ h2)) : NoTaskMerge h1 :=
  fun i r hmem => h i r (List.mem_append_left _ hmem)

/-- What an extension says about the stretch by which the history has grown. -/
theorem node_of_noTaskMerge (fm : FingerprintManager Cfg Nd Resp Err W)
    {a b : Agent Cfg Nd Resp Err W} {new : List (Actor × Call Cfg Nd Resp Err)}
    (hnode : b.node = (merged (new.map Prod.snd)).foldl fm.updateNodeFromFingerprint a.node)
    (runs : List (InitialRun Cfg Nd Resp Err W))
    (hmerged : merged (callsOf Actor.setup new) = runs.map InitialRun.response)
    (hquiet : NoTaskMerge new) : b.node = mergeAll fm a.node runs := by
  rw [hnode, merged_of_noTaskMerge new hquiet, hmerged, mergeAll_eq_foldl]

/-- The history of a successful iteration, piece by piece. -/
theorem agent_afterRun_history (fm : FingerprintManager Cfg Nd Resp Err W) (entry : Entry)
    (a : Agent Cfg Nd Resp Err W) (sched : Schedule) (run : InitialRun Cfg Nd Resp Err W)
    (w1 : W) :
    ∃ n0 n2 : List (Actor × Call Cfg Nd Resp Err),
      callsOf Actor.setup n0 = [] ∧
      (a.atPoint fm sched).node
        = (merged (n0.map Prod.snd)).foldl fm.updateNodeFromFingerprint a.node ∧
      (a.afterRun fm entry sched run w1).history
        = a.history ++ ((n0 ++ [(Actor.setup, resolveCall entry run.name)]) ++
            (Actor.setup, Call.Fingerprint run.name run.request none run.response) :: n2) := by
  obtain ⟨n0, hh0, hc0, hn0, _⟩ := agent_atPoint_extends fm a sched
  obtain ⟨n2, hh2, _, _, _⟩ := agent_atPoint_extends fm
    { a.atPoint fm sched with
      world := w1
      history := (a.atPoint fm sched).history ++
        [(Actor.setup, resolveCall entry run.name),
          (Actor.setup, Call.Fingerprint run.name run.request none run.response)] } sched.tail
  refine ⟨n0, n2 ++ ([(Actor.setup, Call.updateNodeFromFingerprint run.response),
      (Actor.setup, Call.Periodic run.name)] ++
    (if run.f.Periodic.1 then [(Actor.setup, Call.go run.name run.f.Periodic.2)] else [])),
    hc0, hn0, ?_⟩
  have hA : (a.afterRun fm entry sched run w1).history
      = (Agent.atPoint fm
          { a.atPoint fm sched with
            world := w1
            history := (a.atPoint fm sched).history ++
              [(Actor.setup, resolveCall entry run.name),
                (Actor.setup, Call.Fingerprint run.name run.request none run.response)] }
          sched.tail).history ++
        ([(Actor.setup, Call.updateNodeFromFingerprint run.response),
            (Actor.setup, Call.Periodic run.name)] ++
          (if run.f.Periodic.1 then [(Actor.setup, Call.go run.name run.f.Periodic.2)]
            else [])) := rfl
  rw [hA, hh2]
  simp only [hh0, List.append_assoc, List.cons_append, List.nil_append]

/-- Each successful run was given the configuration of the world it ran in and
the node document with every response merged before its call merged in, of
which those merged by the setup goroutine are the responses of the runs
before it. -/
theorem interleavedRuns_requests (fm : FingerprintManager Cfg Nd Resp Err W) (entry : Entry)
    (w0 : W) {names : List String} {sched sched1 : Schedule} {a a1 : Agent Cfg Nd Resp Err W}
    {runs : List (InitialRun Cfg Nd Resp Err W)}
    (h : InterleavedRuns fm entry w0 names sched a runs sched1 a1) :
    ∀ (before after : List (InitialRun Cfg Nd Resp Err W)) (r : InitialRun Cfg Nd Resp Err W),
      runs = before ++ r :: after →
      ∃ h1 h2 : List (Actor × Call Cfg Nd Resp Err),
        a1.history = a.history ++
          (h1 ++ (Actor.setup, Call.Fingerprint r.name r.request none r.response) :: h2) ∧
        r.request = { Config := fm.getConfig r.world,
                      Node := (merged (h1.map Prod.snd)).foldl fm.updateNodeFromFingerprint
                        a.node } ∧
        merged (callsOf Actor.setup h1) = before.map InitialRun.response := by
  induction h with
  | nil sched a =>
    intro before after r hruns
    simp at hruns
  | @cons name rest sched sched1 a a1 f r0 w1 runs hresolve hrun hrest ih =>
    intro before after r hruns
    obtain ⟨nR, hhR, _, _, _⟩ := interleavedRuns_extends fm entry w0 hrest
    cases before with
    | nil =>
      simp only [List.nil_append, List.cons.injEq] at hruns
      obtain ⟨n0, n2, hc0, hn0, hhA⟩ := agent_afterRun_history fm entry a sched
        { name := name, f := f, world := (a.atPoint fm sched).world,
          request := { Config := fm.getConfig (a.atPoint fm sched).world,
                       Node := (a.atPoint fm sched).node },
          response := r0 } w1
      rw [← hruns.1]
      refine ⟨n0 ++ [(Actor.setup, resolveCall entry name)], n2 ++ nR, ?_, ?_, ?_⟩
      · rw [hhR, hhA]
        simp only [List.append_assoc, List.cons_append, List.nil_append]
      · simp only [List.map_append, merged_append]
        rw [hn0]
        cases entry <;> simp [merged, resolveCall]
      · rw [callsOf_append, hc0]
        cases entry <;> simp [merged, callsOf, resolveCall]
    | cons b before =>
      simp only [List.cons_append, List.cons.injEq] at hruns
      obtain ⟨h1, h2, hh, hreq, hm⟩ := ih before after r hruns.2
      obtain ⟨nA, hhA, hcA, hnA, _⟩ := agent_afterRun_extends fm entry a sched
        { name := name, f := f, world := (a.atPoint fm sched).world,
          request := { Config := fm.getConfig (a.atPoint fm sched).world,
                       Node := (a.atPoint fm sched).node },
          response := r0 } w1
      refine ⟨nA ++ h1, h2, ?_, ?_, ?_⟩
      · rw [hh, hhA]
        simp only [List.append_assoc]
      · rw [hreq, hnA, List.map_append, merged_append, List.foldl_append]
      · rw [callsOf_append, merged_append, hcA, merged_run_calls, hm, ← hruns.1]
        rfl

/-- What an extension by the calls of successful runs, followed by calls that
are not merges, says of the stretch by which the history has grown. -/
theorem extends_summary (fm : FingerprintManager Cfg Nd Resp Err W) (entry : Entry)
    {a b : Agent Cfg Nd Resp Err W} {ts : List (Task Cfg Nd Resp Err W)}
    (runs : List (InitialRun Cfg Nd Resp Err W)) (tl : List (Call Cfg Nd Resp Err))
    (h : Agent.Extends fm a b (runs.flatMap (InitialRun.calls entry) ++ tl) ts)
    (htl : merged tl = []) :
    ∃ new : List (Actor × Call Cfg Nd Resp Err),
      b.history = a.history ++ new ∧
      callsOf Actor.setup new = runs.flatMap (InitialRun.calls entry) ++ tl ∧
      merged (callsOf Actor.setup new) = runs.map InitialRun.response ∧
      b.node = (merged (new.map Prod.snd)).foldl fm.updateNodeFromFingerprint a.node ∧
      (NoTaskMerge new → b.node = mergeAll fm a.node runs) ∧
      b.tasks = a.tasks ++ ts := by
  obtain ⟨new, hh, hc, hn, ht⟩ := h
  have hm : merged (callsOf Actor.setup new) = runs.map InitialRun.response := by
    rw [hc, merged_append, merged_runs_calls, htl, List.append_nil]
  exact ⟨new, hh, hc, hm, hn, node_of_noTaskMerge fm hn runs hm, ht⟩

/-- Beside the started tasks too, every setup call either runs all its
detectors successfully, or has a first name that fails after the successful
runs of the names before it. -/
theorem interleaved_setupFrom_outcome (fm : FingerprintManager Cfg Nd Resp Err W)
    (entry : Entry) (w0 : W) :
    ∀ (names : List String) (sched : Schedule) (a : Agent Cfg Nd Resp Err W),
      (∃ runs sched1 a1, InterleavedRuns fm entry w0 names sched a runs sched1 a1 ∧
          Interleaved.setupFrom fm entry w0 names sched a = (none, a1.atPoint fm sched1)) ∨
      (∃ pre name post runs sched1 a1 e, names = pre ++ name :: post ∧
          InterleavedRuns fm entry w0 pre sched a runs sched1 a1 ∧
          FailsWith fm entry w0 name (a1.atPoint fm sched1).node (a1.atPoint fm sched1).world e ∧
          (Interleaved.setupFrom fm entry w0 names sched a).1 = some e) := by
  intro names
  induction names with
  | nil =>
    intro sched a
    exact Or.inl ⟨[], sched, a, InterleavedRuns.nil _ _, interleaved_setupFrom_nil fm entry w0 _ _⟩
  | cons name rest ih =>
    intro sched a
    cases hres : resolve fm entry w0 name with
    | error e =>
      refine Or.inr ⟨[], name, rest, [], sched, a, e, rfl, InterleavedRuns.nil _ _,
        Or.inl hres, ?_⟩
      rw [interleaved_setupFrom_cons_unresolved fm entry w0 name rest sched a e hres]
    | ok f =>
      cases hout : f.Fingerprint
          { Config := fm.getConfig (a.atPoint fm sched).world, Node := (a.atPoint fm sched).node }
          default (a.atPoint fm sched).world with
      | mk err r w1 =>
        cases err with
        | some e =>
          refine Or.inr ⟨[], name, rest, [], sched, a, e, rfl, InterleavedRuns.nil _ _,
            Or.inr ⟨f, hres, ?_⟩, ?_⟩
          · rw [hout]
          · rw [interleaved_setupFrom_cons_failed fm entry w0 name rest sched a f e r w1 hres
              hout]
        | none =>
          rw [interleaved_setupFrom_cons_ok fm entry w0 name rest sched a f r w1 hres hout]
          rcases ih sched.tail.tail (a.afterRun fm entry sched
              { name := name, f := f, world := (a.atPoint fm sched).world,
                request := { Config := fm.getConfig (a.atPoint fm sched).world,
                             Node := (a.atPoint fm sched).node },
                response := r } w1) with
            ⟨runs, sched1, a1, hruns, heq⟩ |
            ⟨pre, nm, post, runs, sched1, a1, e, hnames, hruns, hfail, heq⟩
          · exact Or.inl ⟨_ :: runs, sched1, a1, InterleavedRuns.cons hres hout hruns, heq⟩
          · refine Or.inr ⟨name :: pre, nm, post, _ :: runs, sched1, a1, e, ?_,
              InterleavedRuns.cons hres hout hruns, hfail, heq⟩
            rw [hnames]
            rfl

/-- Beside the started tasks too, the first failing name ends the setup call
with its error. -/
theorem interleaved_setupFrom_first_failure (fm : FingerprintManager Cfg Nd Resp Err W)
    (entry : Entry) (w0 : W) (a : Agent Cfg Nd Resp Err W) (sched : Schedule)
    (pre post : List String) (name : String) (runs : List (InitialRun Cfg Nd Resp Err W))
    (sched1 : Schedule) (a1 : Agent Cfg Nd Resp Err W) (e : Err)
    (hpre : InterleavedRuns fm entry w0 pre sched a runs sched1 a1)
    (hfail : FailsWith fm entry w0 name (a1.atPoint fm sched1).node
      (a1.atPoint fm sched1).world e) :
    (Interleaved.setupFrom fm entry w0 (pre ++ name :: post) sched a).1 = some e := by
  rw [interleaved_setupFrom_append fm entry w0 hpre (name :: post)]
  rcases hfail with hres | ⟨f, hres, herr⟩
  · rw [interleaved_setupFrom_cons_unresolved fm entry w0 name post sched1 a1 e hres]
  · cases hout : f.Fingerprint
        { Config := fm.getConfig (a1.atPoint fm sched1).world,
          Node := (a1.atPoint fm sched1).node } default (a1.atPoint fm sched1).world with
    | mk err r w1 =>
      rw [hout] at herr
      simp only at herr
      subst herr
      rw [interleaved_setupFrom_cons_failed fm entry w0 name post sched1 a1 f e r w1 hres hout]

theorem interleavedRuns_names (fm : FingerprintManager Cfg Nd Resp Err W) (entry : Entry)
    (w0 : W) {names : List String} {sched sched1 : Schedule} {a a1 : Agent Cfg Nd Resp Err W}
    {runs : List (InitialRun Cfg Nd Resp Err W)}
    (h : InterleavedRuns fm entry w0 names sched a runs sched1 a1) :
    runs.map InitialRun.name = names := by
  induction h with
  | nil sched a => rfl
  | cons _ _ _ ih => simp [ih]

/-- C1, as the code has it. For either setup entry point, every list
`pre ++ name :: post` and every schedule of the started tasks: if the names of
`pre` all resolve and their initial Fingerprint calls succeed (runs `runs`),
and `name` resolves to a detector whose Fingerprint call fails with error `e`,
then the setup call returns exactly `e`; the calls of the setup goroutine are
those of the runs of `pre` followed by the resolution and the failed
Fingerprint call of `name`, so that no name of `post` is resolved or
fingerprinted; the responses the call itself has merged are those of `pre`, in
list order, the response variable `r` of the failed call not being merged; and
the node document is the initial one with the responses merged during the
call, by the call and by the started tasks, in the order of the merges.  When
no started task has merged during the call, that is the initial node document
with the responses of `pre` merged in list order. -/
theorem setup_aborts_on_failed_run (fm : FingerprintManager Cfg Nd Resp Err W) (entry : Entry)
    (a : Agent Cfg Nd Resp Err W) (sched : Schedule) (pre post : List String) (name : String)
    (runs : List (InitialRun Cfg Nd Resp Err W)) (sched1 : Schedule)
    (a1 : Agent Cfg Nd Resp Err W) (f : Fingerprint Cfg Nd Resp Err W) (e : Err) (r : Resp)
    (w1 : W)
    (hpre : InterleavedRuns fm entry a.world pre sched a runs sched1 a1)
    (hresolve : resolve fm entry a.world name = Except.ok f)
    (hfail : f.Fingerprint
        { Config := fm.getConfig (a1.atPoint fm sched1).world,
          Node := (a1.atPoint fm sched1).node } default (a1.atPoint fm sched1).world
      = { err := some e, response := r, world := w1 }) :
    (Interleaved.setup fm entry (pre ++ name :: post) sched a).1 = some e ∧
      ∃ new : List (Actor × Call Cfg Nd Resp Err),
        (Interleaved.setup fm entry (pre ++ name :: post) sched a).2.history
          = a.history ++ new ∧
        callsOf Actor.setup new
          = runs.flatMap (InitialRun.calls entry) ++
            [resolveCall entry name,
              Call.Fingerprint name
                { Config := fm.getConfig (a1.atPoint fm sched1).world,
                  Node := (a1.atPoint fm sched1).node } (some e) r] ∧
        merged (callsOf Actor.setup new) = runs.map InitialRun.response ∧
        (Interleaved.setup fm entry (pre ++ name :: post) sched a).2.node
          = (merged (new.map Prod.snd)).foldl fm.updateNodeFromFingerprint a.node ∧
        (NoTaskMerge new →
          (Interleaved.setup fm entry (pre ++ name :: post) sched a).2.node
            = mergeAll fm a.node runs) := by
  rw [interleaved_setup_eq_setupFrom, interleaved_setupFrom_append fm entry a.world hpre
      (name :: post),
    interleaved_setupFrom_cons_failed fm entry a.world name post sched1 a1 f e r w1 hresolve
      hfail]
  refine ⟨rfl, ?_⟩
  have h0 := interleavedRuns_extends fm entry a.world hpre
  have h1 := agent_atPoint_extends fm a1 sched1
  have h2 : Agent.Extends fm (a1.atPoint fm sched1)
      { a1.atPoint fm sched1 with
        world := w1
        history := (a1.atPoint fm sched1).history ++
          [(Actor.setup, resolveCall entry name),
            (Actor.setup, Call.Fingerprint name
              { Config := fm.getConfig (a1.atPoint fm sched1).world,
                Node := (a1.atPoint fm sched1).node } (some e) r)] }
      [resolveCall entry name,
        Call.Fingerprint name
          { Config := fm.getConfig (a1.atPoint fm sched1).world,
            Node := (a1.atPoint fm sched1).node } (some e) r] [] :=
    agent_record_extends fm _ _ _ [] rfl (by cases entry <;> simp [merged, resolveCall])
      (by simp)
  have h3 := agent_atPoint_extends fm
    { a1.atPoint fm sched1 with
      world := w1
      history := (a1.atPoint fm sched1).history ++
        [(Actor.setup, resolveCall entry name),
          (Actor.setup, Call.Fingerprint name
            { Config := fm.getConfig (a1.atPoint fm sched1).world,
              Node := (a1.atPoint fm sched1).node } (some e) r)] } sched1.tail
  have h := agent_extends_trans fm (agent_extends_trans fm (agent_extends_trans fm h0 h1) h2) h3
  simp only [List.append_nil] at h
  obtain ⟨new, hh, hc, hm, hn, hq, _⟩ := extends_summary fm entry runs _ h
    (by cases entry <;> simp [merged, resolveCall])
  exact ⟨new, hh, hc, hm, hn, hq⟩

/-- C2, as the code has it. For either setup entry point, every schedule of
the started tasks and every list of names in which every name resolves and
every initial Fingerprint call succeeds (runs `runs`): the setup call returns
no error; the calls of the setup goroutine are those of the runs, so that its
Fingerprint calls are exactly one per name, in list order; the responses the
call itself has merged are those of the runs, in list order; the node document
is the initial one with the responses merged during the call, by the call and
by the started tasks, in the order of the merges; each detector is given the
current configuration and the node document with every response merged before
its call merged in, of which those merged by the call itself are the
responses of the detectors before it.  When no started task has merged, the
node documents are the initial one with the responses of the detectors (before
the one called, for a request) merged in list order.  For the empty list the
call returns no error, calls nothing and merges nothing. -/
theorem setup_runs_all_in_order (fm : FingerprintManager Cfg Nd Resp Err W) (entry : Entry)
    (a : Agent Cfg Nd Resp Err W) (sched : Schedule) (names : List String)
    (runs : List (InitialRun Cfg Nd Resp Err W)) (sched1 : Schedule)
    (a1 : Agent Cfg Nd Resp Err W)
    (hall : InterleavedRuns fm entry a.world names sched a runs sched1 a1) :
    Interleaved.setup fm entry names sched a = (none, a1.atPoint fm sched1) ∧
      runs.map InitialRun.name = names ∧
      (∃ new : List (Actor × Call Cfg Nd Resp Err),
        (a1.atPoint fm sched1).history = a.history ++ new ∧
        callsOf Actor.setup new = runs.flatMap (InitialRun.calls entry) ∧
        (callsOf Actor.setup new).filterMap Call.fingerprinted
          = runs.map (fun r => (r.name, r.request)) ∧
        merged (callsOf Actor.setup new) = runs.map InitialRun.response ∧
        (a1.atPoint fm sched1).node
          = (merged (new.map Prod.snd)).foldl fm.updateNodeFromFingerprint a.node ∧
        (NoTaskMerge new → (a1.atPoint fm sched1).node = mergeAll fm a.node runs) ∧
        ∀ (before after : List (InitialRun Cfg Nd Resp Err W))
          (r : InitialRun Cfg Nd Resp Err W), runs = before ++ r :: after →
          ∃ h1 h2 : List (Actor × Call Cfg Nd Resp Err),
            new = h1 ++ (Actor.setup, Call.Fingerprint r.name r.request none r.response) :: h2 ∧
            r.request = { Config := fm.getConfig r.world,
                          Node := (merged (h1.map Prod.snd)).foldl
                            fm.updateNodeFromFingerprint a.node } ∧
            merged (callsOf Actor.setup h1) = before.map InitialRun.response ∧
            (NoTaskMerge h1 →
              r.request = { Config := fm.getConfig r.world,
                            Node := mergeAll fm a.node before })) ∧
      ∀ sched0 : Schedule,
        (Interleaved.setup fm entry [] sched0 a).1 = none ∧
        ∃ new0 : List (Actor × Call Cfg Nd Resp Err),
          (Interleaved.setup fm entry [] sched0 a).2.history = a.history ++ new0 ∧
          callsOf Actor.setup new0 = [] ∧
          (Interleaved.setup fm entry [] sched0 a).2.node
            = (merged (new0.map Prod.snd)).foldl fm.updateNodeFromFingerprint a.node ∧
          (NoTaskMerge new0 → (Interleaved.setup fm entry [] sched0 a).2.node = a.node) := by
  refine ⟨?_, interleavedRuns_names fm entry a.world hall, ?_, ?_⟩
  · have h := interleaved_setupFrom_append fm entry a.world hall []
    rw [List.append_nil, interleaved_setupFrom_nil] at h
    rw [interleaved_setup_eq_setupFrom, h]
  · have h0 := interleavedRuns_extends fm entry a.world hall
    have h := agent_extends_trans fm h0 (agent_atPoint_extends fm a1 sched1)
    obtain ⟨nR, hhR, _, _, _⟩ := h0
    obtain ⟨n1, hh1, _, _, _⟩ := agent_atPoint_extends fm a1 sched1
    have hsum : Agent.Extends fm a (a1.atPoint fm sched1)
        (runs.flatMap (InitialRun.calls entry) ++ []) (runs.flatMap InitialRun.tasks) := by
      simpa using h
    obtain ⟨new, hh, hc, hm, hn, hq, _⟩ := extends_summary fm entry runs [] hsum rfl
    simp only [List.append_nil] at hc
    have hnew : new = nR ++ n1 := by
      have h2 : a.history ++ new = a.history ++ (nR ++ n1) := by
        rw [← hh, hh1, hhR, List.append_assoc]
      exact List.append_cancel_left h2
    refine ⟨new, hh, hc, ?_, hm, hn, hq, ?_⟩
    · rw [hc]
      exact fingerprinted_calls entry runs
    · intro before after r hruns
      obtain ⟨h1, h2, hhist, hreq, hmb⟩ :=
        interleavedRuns_requests fm entry a.world hall before after r hruns
      have hnR : nR = h1 ++
          (Actor.setup, Call.Fingerprint r.name r.request none r.response) :: h2 := by
        have h3 : a.history ++ nR = a.history ++ (h1 ++
            (Actor.setup, Call.Fingerprint r.name r.request none r.response) :: h2) := by
          rw [← hhR, hhist]
        exact List.append_cancel_left h3
      refine ⟨h1, h2 ++ n1, ?_, hreq, hmb, ?_⟩
      · rw [hnew, hnR]
        simp only [List.append_assoc, List.cons_append]
      · intro hquiet
        rw [hreq, merged_of_noTaskMerge h1 hquiet, hmb, mergeAll_eq_foldl]
  · intro sched0
    rw [interleaved_setup_eq_setupFrom, interleaved_setupFrom_nil]
    obtain ⟨new0, hh, hc, hn, _⟩ := agent_atPoint_extends fm a sched0
    refine ⟨rfl, new0, hh, hc, hn, ?_⟩
    intro hquiet
    have hm := merged_of_noTaskMerge new0 hquiet
    rw [hc] at hm
    show (a.atPoint fm sched0).node = a.node
    rw [hn, hm]
    rfl

/-- C3, as the code has it. For either setup entry point, every list
`pre ++ name :: post` and every schedule of the started tasks: if the names of
`pre` all resolve and their initial Fingerprint calls succeed (runs `runs`),
and resolving `name` fails with error `e`, then the setup call returns exactly
`e`; the calls of the setup goroutine are those of the runs of `pre` followed
by the failed resolution, so that no Fingerprint call is made for `name` and
no name of `post` is resolved or fingerprinted; the responses the call itself
has merged are those of `pre`, in list order; and the node document is the
initial one with the responses merged during the call, by the call and by the
started tasks, in the order of the merges, which is the initial one with the
responses of `pre` merged in list order when no started task has merged.
Moreover, for every list of names and every schedule, the setup call returns
error `e2` if and only if the list has a first failing name (one that fails to
resolve, or whose initial Fingerprint call fails, all names before it
succeeding) and `e2` is the error of that failure. -/
theorem setup_aborts_on_unresolved_name (fm : FingerprintManager Cfg Nd Resp Err W)
    (entry : Entry) (a : Agent Cfg Nd Resp Err W) :
    (∀ (sched : Schedule) (pre post : List String) (name : String)
        (runs : List (InitialRun Cfg Nd Resp Err W)) (sched1 : Schedule)
        (a1 : Agent Cfg Nd Resp Err W) (e : Err),
        InterleavedRuns fm entry a.world pre sched a runs sched1 a1 →
        resolve fm entry a.world name = Except.error e →
        (Interleaved.setup fm entry (pre ++ name :: post) sched a).1 = some e ∧
          ∃ new : List (Actor × Call Cfg Nd Resp Err),
            (Interleaved.setup fm entry (pre ++ name :: post) sched a).2.history
              = a.history ++ new ∧
            callsOf Actor.setup new
              = runs.flatMap (InitialRun.calls entry) ++ [resolveCall entry name] ∧
            merged (callsOf Actor.setup new) = runs.map InitialRun.response ∧
            (Interleaved.setup fm entry (pre ++ name :: post) sched a).2.node
              = (merged (new.map Prod.snd)).foldl fm.updateNodeFromFingerprint a.node ∧
            (NoTaskMerge new →
              (Interleaved.setup fm entry (pre ++ name :: post) sched a).2.node
                = mergeAll fm a.node runs)) ∧
      ∀ (names : List String) (sched : Schedule) (e2 : Err),
        (Interleaved.setup fm entry names sched a).1 = some e2 ↔
          ∃ pre2 name2 post2 runs2 sched2 a2, names = pre2 ++ name2 :: post2 ∧
            InterleavedRuns fm entry a.world pre2 sched a runs2 sched2 a2 ∧
            FailsWith fm entry a.world name2 (a2.atPoint fm sched2).node
              (a2.atPoint fm sched2).world e2 := by
  constructor
  · intro sched pre post name runs sched1 a1 e hpre hresolve
    rw [interleaved_setup_eq_setupFrom, interleaved_setupFrom_append fm entry a.world hpre
        (name :: post),
      interleaved_setupFrom_cons_unresolved fm entry a.world name post sched1 a1 e hresolve]
    refine ⟨rfl, ?_⟩
    have h0 := interleavedRuns_extends fm entry a.world hpre
    have h1 := agent_atPoint_extends fm a1 sched1
    have h2 : Agent.Extends fm (a1.atPoint fm sched1)
        { a1.atPoint fm sched1 with
          logs := (a1.atPoint fm sched1).logs ++ resolveFailureLogs entry name e
          history := (a1.atPoint fm sched1).history ++
            [(Actor.setup, resolveCall entry name)] }
        [resolveCall entry name] [] :=
      agent_record_extends fm _ _ _ [] rfl (by cases entry <;> simp [merged, resolveCall])
        (by simp)
    have h := agent_extends_trans fm (agent_extends_trans fm h0 h1) h2
    simp only [List.append_nil] at h
    obtain ⟨new, hh, hc, hm, hn, hq, _⟩ := extends_summary fm entry runs _ h
      (by cases entry <;> simp [merged, resolveCall])
    exact ⟨new, hh, hc, hm, hn, hq⟩
  · intro names sched e2
    rw [interleaved_setup_eq_setupFrom]
    constructor
    · intro hret
      rcases interleaved_setupFrom_outcome fm entry a.world names sched a with
        ⟨runs2, sched2, a2, _, heq⟩ |
        ⟨pre2, name2, post2, runs2, sched2, a2, e3, hnames, hruns, hfail, heq⟩
      · rw [heq] at hret
        simp at hret
      · rw [heq] at hret
        injection hret with hret
        subst hret
        exact ⟨pre2, name2, post2, runs2, sched2, a2, hnames, hruns, hfail⟩
    · rintro ⟨pre2, name2, post2, runs2, sched2, a2, hnames, hruns, hfail⟩
      subst hnames
      exact interleaved_setupFrom_first_failure fm entry a.world a sched pre2 post2 name2 runs2
        sched2 a2 e2 hruns hfail

/-- Beside the started tasks too, a setup call that stops at a first failing
name has recorded, for the setup goroutine, the calls of the successful runs
followed by calls that are neither merges, nor `Periodic()`, nor `go`, and has
started the tasks of the successful runs. -/
theorem interleaved_failure_extends (fm : FingerprintManager Cfg Nd Resp Err W)
    (entry : Entry) (w0 : W) (a : Agent Cfg Nd Resp Err W) (sched : Schedule)
    (pre post : List String) (name : String) (runs : List (InitialRun Cfg Nd Resp Err W))
    (sched1 : Schedule) (a1 : Agent Cfg Nd Resp Err W) (e : Err)
    (hpre : InterleavedRuns fm entry w0 pre sched a runs sched1 a1)
    (hfail : FailsWith fm entry w0 name (a1.atPoint fm sched1).node
      (a1.atPoint fm sched1).world e) :
    ∃ tl : List (Call Cfg Nd Resp Err),
      Agent.Extends fm a (Interleaved.setupFrom fm entry w0 (pre ++ name :: post) sched a).2
        (runs.flatMap (InitialRun.calls entry) ++ tl) (runs.flatMap InitialRun.tasks) ∧
      merged tl = [] ∧
      ∀ c ∈ tl, (∀ n, c ≠ Call.Periodic n) ∧ (∀ n p, c ≠ Call.go n p) := by
  rw [interleaved_setupFrom_append fm entry w0 hpre (name :: post)]
  have h0 := interleavedRuns_extends fm entry w0 hpre
  have h1 := agent_atPoint_extends fm a1 sched1
  rcases hfail with hres | ⟨f, hres, herr⟩
  · rw [interleaved_setupFrom_cons_unresolved fm entry w0 name post sched1 a1 e hres]
    have h2 : Agent.Extends fm (a1.atPoint fm sched1)
        { a1.atPoint fm sched1 with
          logs := (a1.atPoint fm sched1).logs ++ resolveFailureLogs entry name e
          history := (a1.atPoint fm sched1).history ++
            [(Actor.setup, resolveCall entry name)] }
        [resolveCall entry name] [] :=
      agent_record_extends fm _ _ _ [] rfl (by cases entry <;> simp [merged, resolveCall])
        (by simp)
    have h := agent_extends_trans fm (agent_extends_trans fm h0 h1) h2
    simp only [List.append_nil] at h
    refine ⟨[resolveCall entry name], h, by cases entry <;> simp [merged, resolveCall], ?_⟩
    intro c hc
    cases entry <;> simp [resolveCall] at hc <;> subst hc <;> simp
  · cases hout : f.Fingerprint
        { Config := fm.getConfig (a1.atPoint fm sched1).world,
          Node := (a1.atPoint fm sched1).node } default (a1.atPoint fm sched1).world with
    | mk err r w1 =>
      rw [hout] at herr
      simp only at herr
      subst herr
      rw [interleaved_setupFrom_cons_failed fm entry w0 name post sched1 a1 f e r w1 hres hout]
      have h2 : Agent.Extends fm (a1.atPoint fm sched1)
          { a1.atPoint fm sched1 with
            world := w1
            history := (a1.atPoint fm sched1).history ++
              [(Actor.setup, resolveCall entry name),
                (Actor.setup, Call.Fingerprint name
                  { Config := fm.getConfig (a1.atPoint fm sched1).world,
                    Node := (a1.atPoint fm sched1).node } (some e) r)] }
          [resolveCall entry name,
            Call.Fingerprint name
              { Config := fm.getConfig (a1.atPoint fm sched1).world,
                Node := (a1.atPoint fm sched1).node } (some e) r] [] :=
        agent_record_extends fm _ _ _ [] rfl (by cases entry <;> simp [merged, resolveCall])
          (by simp)
      have h3 := agent_atPoint_extends fm
        { a1.atPoint fm sched1 with
          world := w1
          history := (a1.atPoint fm sched1).history ++
            [(Actor.setup, resolveCall entry name),
              (Actor.setup, Call.Fingerprint name
                { Config := fm.getConfig (a1.atPoint fm sched1).world,
                  Node := (a1.atPoint fm sched1).node } (some e) r)] } sched1.tail
      have h := agent_extends_trans fm
        (agent_extends_trans fm (agent_extends_trans fm h0 h1) h2) h3
      simp only [List.append_nil] at h
      refine ⟨_, h, by cases entry <;> simp [merged, resolveCall], ?_⟩
      intro c hc
      cases entry <;> simp [resolveCall] at hc <;> rcases hc with hc | hc <;> subst hc <;> simp

/-- Beside the started tasks too, under every schedule: the tasks a setup call
starts are exactly those of the detectors that resolved and ran successfully
and whose `Periodic()` returns true, in list order, and the calls of the setup
goroutine are the calls of the successful runs followed by calls among which
there is no `Periodic()` and no `go`. -/
theorem interleaved_setup_spawns_periodic_tasks (fm : FingerprintManager Cfg Nd Resp Err W)
    (entry : Entry) (a : Agent Cfg Nd Resp Err W) (sched : Schedule) (pre rest : List String)
    (runs : List (InitialRun Cfg Nd Resp Err W)) (sched1 : Schedule)
    (a1 : Agent Cfg Nd Resp Err W)
    (hpre : InterleavedRuns fm entry a.world pre sched a runs sched1 a1)
    (hstop : rest = [] ∨ ∃ name post e, rest = name :: post ∧
      FailsWith fm entry a.world name (a1.atPoint fm sched1).node
        (a1.atPoint fm sched1).world e) :
    (Interleaved.setup fm entry (pre ++ rest) sched a).2.tasks
        = a.tasks ++ (runs.filter (fun r => r.f.Periodic.1)).map
            (fun r => { f := r.f, period := r.f.Periodic.2, name := r.name }) ∧
      ∃ (new : List (Actor × Call Cfg Nd Resp Err)) (tl : List (Call Cfg Nd Resp Err)),
        (Interleaved.setup fm entry (pre ++ rest) sched a).2.history = a.history ++ new ∧
        callsOf Actor.setup new = runs.flatMap (InitialRun.calls entry) ++ tl ∧
        ∀ c ∈ tl, (∀ n, c ≠ Call.Periodic n) ∧ (∀ n p, c ≠ Call.go n p) := by
  rw [interleaved_setup_eq_setupFrom, ← tasks_eq_filter runs]
  rcases hstop with hnil | ⟨name, post, e, hrest, hfail⟩
  · subst hnil
    rw [interleaved_setupFrom_append fm entry a.world hpre [], interleaved_setupFrom_nil]
    obtain ⟨new, hh, hc, _, ht⟩ := agent_extends_trans fm
      (interleavedRuns_extends fm entry a.world hpre) (agent_atPoint_extends fm a1 sched1)
    exact ⟨by simpa using ht, new, [], hh, by simpa using hc, by simp⟩
  · subst hrest
    obtain ⟨tl, ⟨new, hh, hc, _, ht⟩, _, htl⟩ :=
      interleaved_failure_extends fm entry a.world a sched pre post name runs sched1 a1 e hpre
        hfail
    exact ⟨ht, new, tl, hh, hc, htl⟩

/-- Under a schedule that gives the started tasks no step, the agent at a
point of the setup call is the agent before it. -/
theorem atPoint_of_quiet (fm : FingerprintManager Cfg Nd Resp Err W)
    (a : Agent Cfg Nd Resp Err W) (sched : Schedule) (hquiet : ∀ b ∈ sched, b = []) :
    a.atPoint fm sched = a := by
  cases sched with
  | nil => rfl
  | cons b sched =>
    have hb : b = [] := hquiet b (List.mem_cons_self _ _)
    subst hb
    rfl

theorem quiet_tail (sched : Schedule) (hquiet : ∀ b ∈ sched, b = []) :
    ∀ b ∈ sched.tail, b = [] :=
  fun b hb => hquiet b (List.mem_of_mem_tail hb)

/-- The setup entry points taken alone are the setup entry points beside the
started tasks under a schedule that gives the tasks no step. -/
theorem interleaved_setupFrom_of_quiet (fm : FingerprintManager Cfg Nd Resp Err W)
    (entry : Entry) (w0 : W) :
    ∀ (names : List String) (sched : Schedule) (a : Agent Cfg Nd Resp Err W),
      (∀ b ∈ sched, b = []) →
      ((Interleaved.setupFrom fm entry w0 names sched a).1,
        (Interleaved.setupFrom fm entry w0 names sched a).2.toState)
        = setupFrom fm entry w0 names a.toState := by
  intro names
  induction names with
  | nil =>
    intro sched a hquiet
    rw [interleaved_setupFrom_nil, setupFrom_nil, atPoint_of_quiet fm a sched hquiet]
  | cons name rest ih =>
    intro sched a hquiet
    have h0 := atPoint_of_quiet fm a sched hquiet
    cases hres : resolve fm entry w0 name with
    | error e =>
      rw [interleaved_setupFrom_cons_unresolved fm entry w0 name rest sched a e hres,
        setupFrom_cons_unresolved fm entry w0 name rest a.toState e hres, h0]
      simp [Agent.toState, callsOf_append, callsOf]
    | ok f =>
      cases hout : f.Fingerprint { Config := fm.getConfig a.world, Node := a.node } default
          a.world with
      | mk err r w1 =>
        have hout0 : f.Fingerprint
            { Config := fm.getConfig (a.atPoint fm sched).world,
              Node := (a.atPoint fm sched).node } default (a.atPoint fm sched).world
            = { err := err, response := r, world := w1 } := by
          rw [h0]; exact hout
        cases err with
        | some e =>
          rw [interleaved_setupFrom_cons_failed fm entry w0 name rest sched a f e r w1 hres
              hout0,
            setupFrom_cons_failed fm entry w0 name rest a.toState f e r w1 hres hout,
            atPoint_of_quiet fm _ sched.tail (quiet_tail sched hquiet), h0]
          simp [Agent.toState, callsOf_append, callsOf]
        | none =>
          rw [interleaved_setupFrom_cons_ok fm entry w0 name rest sched a f r w1 hres hout0,
            setupFrom_cons_ok fm entry w0 name rest a.toState f r w1 hres hout,
            ih sched.tail.tail _ (quiet_tail _ (quiet_tail sched hquiet))]
          congr 1
          simp only [Agent.afterRun, atPoint_of_quiet fm _ sched.tail (quiet_tail sched hquiet),
            h0]
          cases entry <;> by_cases hp : f.Periodic.1 = true <;>
            simp [Agent.toState, afterRuns, mergeAll, callsOf_append, callsOf,
              InitialRun.calls, InitialRun.tasks, resolveCall, hp]

/-- A setup call taken alone, from state `s`, is the setup call beside the
started tasks, from the agent of `s`, under a schedule that gives the tasks no
step. -/
theorem setup_eq_interleaved_of_quiet (fm : FingerprintManager Cfg Nd Resp Err W)
    (entry : Entry) (names : List String) (sched : Schedule) (s : State Cfg Nd Resp Err W)
    (hquiet : ∀ b ∈ sched, b = []) :
    setup fm entry names s
      = ((Interleaved.setup fm entry names sched (Agent.ofState s)).1,
          (Interleaved.setup fm entry names sched (Agent.ofState s)).2.toState) := by
  have hs : (Agent.ofState s).toState = s := by
    cases s
    simp [Agent.ofState, Agent.toState, callsOf, List.filterMap_map, Function.comp_def]
  rw [setup_eq_setupFrom, interleaved_setup_eq_setupFrom,
    interleaved_setupFrom_of_quiet fm entry (Agent.ofState s).world names sched _ hquiet, hs]
  rfl

end Properties

/-! ### The properties on the concrete agent -/

namespace Scenario

/-- From `start`, `memory` and then `cpu` resolve as attribute detectors and
run successfully. -/
theorem memory_cpu_runs :
    InitialRuns fm Entry.SetupFingerprints start.world ["memory", "cpu"] start.node start.world
      [memoryRun, cpuRun] 2 :=
  InitialRuns.cons rfl rfl (InitialRuns.cons rfl rfl (InitialRuns.nil _ _))

/-- From `boot` and under `tickDuringCpu`, `memory` and then `cpu` resolve as
attribute detectors and run successfully, beside the task of `memory`. -/
theorem memory_cpu_runs_beside_task :
    InterleavedRuns fm Entry.SetupFingerprints boot.world ["memory", "cpu"] tickDuringCpu boot
      [memoryRun, cpuRun] [] afterMemoryCpu :=
  InterleavedRuns.cons rfl rfl (InterleavedRuns.cons rfl rfl (InterleavedRuns.nil _ _))

/-- From `boot` and under `ticksAfterMemory`, `memory` resolves as an attribute
detector and runs successfully. -/
theorem memory_runs_beside_task :
    InterleavedRuns fm Entry.SetupFingerprints boot.world ["memory"] ticksAfterMemory boot
      [memoryRun] ticksAfterMemory.tail.tail afterMemory :=
  InterleavedRuns.cons rfl rfl (InterleavedRuns.nil _ _)

/-- C1 as claimed fails on the concrete agent: in `SetupFingerprints ["memory",
"cpu", "storage"]`, `memory` and `cpu` resolve and run successfully and
`storage` fails, and the task of `memory`, started by the call, makes a
successful tick between the Fingerprint call of `cpu` and its merge; the call
returns the error of `storage` with a node document that is not the initial
one with the responses of `memory` and `cpu` merged. -/
theorem setup_failed_run_after_tick :
    (Interleaved.SetupFingerprints fm ["memory", "cpu", "storage"] tickDuringCpu boot).1
        = some "storage: no such device" ∧
      callsOf Actor.setup
          (Interleaved.SetupFingerprints fm ["memory", "cpu", "storage"] tickDuringCpu
            boot).2.history
        = [Call.NewFingerprint "memory",
            Call.Fingerprint "memory"
              { Config := "global", Node := [("memory.totalbytes", 512)] } none
              [("memory.totalbytes", 1000)],
            Call.updateNodeFromFingerprint [("memory.totalbytes", 1000)],
            Call.Periodic "memory", Call.go "memory" 50000000,
            Call.NewFingerprint "cpu",
            Call.Fingerprint "cpu"
              { Config := "global", Node := [("memory.totalbytes", 1000)] } none
              [("cpu.numcores", 4)],
            Call.updateNodeFromFingerprint [("cpu.numcores", 4)],
            Call.Periodic "cpu",
            Call.NewFingerprint "storage",
            Call.Fingerprint "storage"
              { Config := "global",
                Node := [("cpu.numcores", 4), ("memory.totalbytes", 1002)] }
              (some "storage: no such device") []] ∧
      (Interleaved.SetupFingerprints fm ["memory", "cpu", "storage"] tickDuringCpu boot).2.node
        = [("cpu.numcores", 4), ("memory.totalbytes", 1002)] ∧
      mergeAll fm boot.node [memoryRun, cpuRun]
        = [("cpu.numcores", 4), ("memory.totalbytes", 1000)] := by
  decide

/-- C1, as the code has it, on the concrete agent: `SetupFingerprints
["memory", "cpu", "storage", "cpu"]` under `tickDuringCpu`. -/
theorem setup_aborts_on_failed_run_witness :
    InterleavedRuns fm Entry.SetupFingerprints boot.world ["memory", "cpu"] tickDuringCpu boot
        [memoryRun, cpuRun] [] afterMemoryCpu ∧
      resolve fm Entry.SetupFingerprints boot.world "storage" = Except.ok storage ∧
      storage.Fingerprint
          { Config := fm.getConfig (afterMemoryCpu.atPoint fm []).world,
            Node := (afterMemoryCpu.atPoint fm []).node } default
          (afterMemoryCpu.atPoint fm []).world
        = { err := some "storage: no such device", response := [], world := 4 } ∧
      (Interleaved.setup fm Entry.SetupFingerprints ["memory", "cpu", "storage", "cpu"]
          tickDuringCpu boot).1 = some "storage: no such device" :=
  ⟨memory_cpu_runs_beside_task, rfl, rfl,
    (setup_aborts_on_failed_run fm Entry.SetupFingerprints boot tickDuringCpu
      ["memory", "cpu"] ["cpu"] "storage" [memoryRun, cpuRun] [] afterMemoryCpu storage
      "storage: no such device" [] 4 memory_cpu_runs_beside_task rfl rfl).1⟩

/-- C2 as claimed fails on the concrete agent: in `SetupFingerprints ["memory",
"cpu"]` both names resolve and run successfully, and the task of `memory`,
started by the call, makes a failed and a successful tick before the iteration
of `cpu`; `cpu` is given a node document that is not the initial one with the
response of `memory` merged, and the call leaves a node document that is not
the initial one with the responses of `memory` and `cpu` merged. -/
theorem setup_all_runs_after_ticks :
    (Interleaved.SetupFingerprints fm ["memory", "cpu"] ticksAfterMemory boot).1 = none ∧
      (callsOf Actor.setup
          (Interleaved.SetupFingerprints fm ["memory", "cpu"] ticksAfterMemory
            boot).2.history).filterMap Call.fingerprinted
        = [("memory", { Config := "global", Node := [("memory.totalbytes", 512)] }),
           ("cpu", { Config := "global", Node := [("memory.totalbytes", 1002)] })] ∧
      merged (callsOf Actor.setup
          (Interleaved.SetupFingerprints fm ["memory", "cpu"] ticksAfterMemory boot).2.history)
        = [[("memory.totalbytes", 1000)], [("cpu.numcores", 4)]] ∧
      (Interleaved.SetupFingerprints fm ["memory", "cpu"] ticksAfterMemory boot).2.node
        = [("cpu.numcores", 4), ("memory.totalbytes", 1002)] ∧
      fm.updateNodeFromFingerprint boot.node [("memory.totalbytes", 1000)]
        = [("memory.totalbytes", 1000)] ∧
      fm.updateNodeFromFingerprint
          (fm.updateNodeFromFingerprint boot.node [("memory.totalbytes", 1000)])
          [("cpu.numcores", 4)]
        = [("cpu.numcores", 4), ("memory.totalbytes", 1000)] := by
  decide

/-- C2, as the code has it, on the concrete agent: `SetupFingerprints
["memory", "cpu"]` under `tickDuringCpu`. -/
theorem setup_runs_all_in_order_witness :
    InterleavedRuns fm Entry.SetupFingerprints boot.world ["memory", "cpu"] tickDuringCpu boot
        [memoryRun, cpuRun] [] afterMemoryCpu ∧
      (Interleaved.setup fm Entry.SetupFingerprints ["memory", "cpu"] tickDuringCpu boot).1
        = none ∧
      (Interleaved.setup fm Entry.SetupFingerprints ["memory", "cpu"] tickDuringCpu
          boot).2.node
        = [("cpu.numcores", 4), ("memory.totalbytes", 1002)] :=
  have h := setup_runs_all_in_order fm Entry.SetupFingerprints boot tickDuringCpu
    ["memory", "cpu"] [memoryRun, cpuRun] [] afterMemoryCpu memory_cpu_runs_beside_task
  ⟨memory_cpu_runs_beside_task, congrArg Prod.fst h.1, congrArg (fun p => p.2.node) h.1⟩

/-- C3 as claimed fails on the concrete agent: in `SetupFingerprints ["memory",
"bogus"]`, `memory` resolves and runs successfully and `bogus` is not a
detector of the registry, and the task of `memory`, started by the call, makes
a failed and a successful tick before the iteration of `bogus`; the call
returns the resolution error with a node document that is not the initial one
with the response of `memory` merged. -/
theorem setup_unresolved_name_after_ticks :
    (Interleaved.SetupFingerprints fm ["memory", "bogus"] ticksAfterMemory boot).1
        = some "unknown fingerprint: bogus" ∧
      callsOf Actor.setup
          (Interleaved.SetupFingerprints fm ["memory", "bogus"] ticksAfterMemory
            boot).2.history
        = [Call.NewFingerprint "memory",
            Call.Fingerprint "memory"
              { Config := "global", Node := [("memory.totalbytes", 512)] } none
              [("memory.totalbytes", 1000)],
            Call.updateNodeFromFingerprint [("memory.totalbytes", 1000)],
            Call.Periodic "memory", Call.go "memory" 50000000,
            Call.NewFingerprint "bogus"] ∧
      (Interleaved.SetupFingerprints fm ["memory", "bogus"] ticksAfterMemory boot).2.node
        = [("memory.totalbytes", 1002)] ∧
      mergeAll fm boot.node [memoryRun] = [("memory.totalbytes", 1000)] := by
  decide

/-- C3, as the code has it, on the concrete agent: `SetupFingerprints
["memory", "bogus", "cpu"]` under `ticksAfterMemory`. -/
theorem setup_aborts_on_unresolved_name_witness :
    InterleavedRuns fm Entry.SetupFingerprints boot.world ["memory"] ticksAfterMemory boot
        [memoryRun] ticksAfterMemory.tail.tail afterMemory ∧
      resolve fm Entry.SetupFingerprints boot.world "bogus"
        = Except.error "unknown fingerprint: bogus" ∧
      (Interleaved.setup fm Entry.SetupFingerprints ["memory", "bogus", "cpu"]
          ticksAfterMemory boot).1 = some "unknown fingerprint: bogus" :=
  ⟨memory_runs_beside_task, rfl,
    ((setup_aborts_on_unresolved_name fm Entry.SetupFingerprints boot).1 ticksAfterMemory
      ["memory"] ["cpu"] "bogus" [memoryRun] ticksAfterMemory.tail.tail afterMemory
      "unknown fingerprint: bogus" memory_runs_beside_task rfl).1⟩

/-- C4 on the concrete agent: `SetupFingerprints ["memory", "cpu", "storage"]`
spawns the task of `memory` and no other. -/
theorem setup_spawns_periodic_tasks_witness :
    InitialRuns fm Entry.SetupFingerprints start.world ["memory", "cpu"] start.node start.world
        [memoryRun, cpuRun] 2 ∧
      FailsWith fm Entry.SetupFingerprints start.world "storage"
        (mergeAll fm start.node [memoryRun, cpuRun]) 2 "storage: no such device" ∧
      (setup fm Entry.SetupFingerprints ["memory", "cpu", "storage"] start).2.tasks
        = [{ f := memory, period := 50000000, name := "memory" }] :=
  have hfail : FailsWith fm Entry.SetupFingerprints start.world "storage"
      (mergeAll fm start.node [memoryRun, cpuRun]) 2 "storage: no such device" :=
    Or.inr ⟨storage, rfl, rfl⟩
  ⟨memory_cpu_runs, hfail,
    (setup_spawns_periodic_tasks fm Entry.SetupFingerprints start ["memory", "cpu"]
      ["storage"] [memoryRun, cpuRun] 2 memory_cpu_runs
      (Or.inr ⟨"storage", [], "storage: no such device", rfl, hfail⟩)).1⟩

/-- C5 on the concrete agent: the second tick of the task of `memory` fails,
and the task is waiting again with the node document of the first tick. -/
theorem run_survives_failed_tick_witness :
    run fm memory 50000000 "memory" [tick] start = (Phase.WAITING, afterFirstTick) ∧
      select tick = some SelectCase.timer ∧
      run fm memory 50000000 "memory" [tick, tick] start
        = (Phase.WAITING,
            { node := [("memory.totalbytes", 1000)]
              world := 2
              logs := [LogEvent.periodicStart "memory" 50000000,
                LogEvent.periodicFailed "memory" "memory: probe failed"]
              calls := [Call.Fingerprint "memory"
                  { Config := "global", Node := [("memory.totalbytes", 512)] } none
                  [("memory.totalbytes", 1000)],
                Call.updateNodeFromFingerprint [("memory.totalbytes", 1000)],
                Call.Fingerprint "memory"
                  { Config := "global", Node := [("memory.totalbytes", 1000)] }
                  (some "memory: probe failed") []]
              tasks := [] }) :=
  ⟨rfl, rfl,
    (run_survives_failed_tick fm memory 50000000 "memory" [tick] start afterFirstTick tick
      "memory: probe failed" [] 2 rfl rfl rfl).1⟩

/-- C6 as claimed fails on the concrete agent: at a wake-up at which the
shutdown channel and the timer channel can both be received from, `select` can
take the timer clause; the task then calls the detector, merges its response
and is waiting, not terminated. -/
theorem run_tick_selected_at_shutdown :
    tickAtShutdown.shutdown = true ∧ tickAtShutdown.timer = true ∧
      (run fm memory 50000000 "memory" [tickAtShutdown] start).1 = Phase.WAITING ∧
      (run fm memory 50000000 "memory" [tickAtShutdown] start).2.calls
        = [Call.Fingerprint "memory"
            { Config := "global", Node := [("memory.totalbytes", 512)] } none
            [("memory.totalbytes", 1000)],
           Call.updateNodeFromFingerprint [("memory.totalbytes", 1000)]] ∧
      (run fm memory 50000000 "memory" [tickAtShutdown] start).2.node
        = [("memory.totalbytes", 1000)] := by
  decide

/-- C6, as the code has it, on the concrete agent: the shutdown clause is taken
after one tick, and the two wake-ups after it have no effect. -/
theorem run_terminates_on_selected_shutdown_witness :
    run fm memory 50000000 "memory" [tick] start = (Phase.WAITING, afterFirstTick) ∧
      stop.shutdown = true ∧ stop.timer = false ∧
      run fm memory 50000000 "memory" [tick, stop, tick, tick] start
        = (Phase.TERMINATED, afterFirstTick) :=
  ⟨rfl, rfl, rfl,
    run_terminates_on_selected_shutdown fm memory 50000000 "memory" [tick] [tick, tick] start
      afterFirstTick stop rfl rfl (Or.inl rfl)⟩

/-- The merge of the concrete agent is the identity on the empty response. -/
theorem updateNode_empty (node : Attributes) : fm.updateNodeFromFingerprint node default = node := by
  show updateNode node [] = node
  simp [updateNode]

/-- C8 on the concrete agent: the driver `exec` reports nothing, and the node
document is untouched by its run. -/
theorem fingerprint_unchanged_response_witness :
    exec.Fingerprint { Config := fm.getConfig start.world, Node := start.node } default
        start.world = { err := none, response := default, world := 1 } ∧
      (∀ node : Attributes, fm.updateNodeFromFingerprint node default = node) ∧
      (fingerprint fm "exec" exec start).2.node = [("memory.totalbytes", 512)] ∧
      (fingerprint fm "exec" exec start).2.calls
        = [Call.Fingerprint "exec" { Config := "global", Node := [("memory.totalbytes", 512)] }
            none [],
           Call.updateNodeFromFingerprint []] :=
  have h := fingerprint_unchanged_response fm "exec" exec start default 1 rfl rfl
    updateNode_empty
  ⟨rfl, updateNode_empty, h.2.1, congrArg (fun p => p.2.calls) h.1⟩

/-- C10 fails on the concrete agent: `SetupDrivers` returns the error of a
driver name that does not resolve and logs nothing, and `SetupFingerprints`
returns the error of a failed initial Fingerprint call and logs nothing, while
each entry point logs the failure that the other one leaves out. -/
theorem setup_failure_without_log :
    (SetupDrivers fm ["bogus"] start).1 = some "unknown driver: bogus" ∧
      (SetupDrivers fm ["bogus"] start).2.logs = [] ∧
      (SetupFingerprints fm ["storage"] start).1 = some "storage: no such device" ∧
      (SetupFingerprints fm ["storage"] start).2.logs = [] ∧
      (SetupFingerprints fm ["bogus"] start).1 = some "unknown fingerprint: bogus" ∧
      (SetupFingerprints fm ["bogus"] start).2.logs
        = [LogEvent.setupFailed "bogus" "unknown fingerprint: bogus"] ∧
      (SetupDrivers fm ["docker"] start).1 = some "docker: daemon unreachable" ∧
      (SetupDrivers fm ["docker"] start).2.logs
        = [LogEvent.setupFailed "docker" "docker: daemon unreachable"] := by
  decide

end Scenario

end Client
